import Mathlib

/-!
Verification of the VÖ-Tabellen formatting engine (`vo_tabellen_gui.py`).

The development shallowly embeds the worksheet-manipulating core of the
program: a worksheet is a total function from 1-based (row, column)
coordinates to cells, together with its list of merge ranges and its used
dimensions (`max_row` / `max_column`).  Python cell values (None, int,
float, str) become the inductive type `CellValue`; Python floats are
modelled as exact rationals.  Styling attributes that the code copies
around (font, border, fill, protection, alignment, number format) are
carried as abstract tokens or strings so that "this attribute was copied /
was not touched" is expressible.

String-processing helpers (strip, substring search, the copyright-year
regular expression, the year search of the period resolver) are
implemented directly on `List Char` so that all definitions evaluate by
kernel reduction on concrete inputs.
-/

/-- A Python cell value: `None`, an `int`, a `float` (modelled as an exact
rational), or a `str`. -/
inductive CellValue where
  | vNone
  | vInt (n : Int)
  | vFloat (q : ℚ)
  | vStr (s : String)
deriving DecidableEq

open CellValue

/-- One worksheet cell: its value, number-format string and the styling
attributes the program reads or copies (fill, font, border, protection
and the two alignment components).  Styling attributes other than the
number format are opaque tokens. -/
structure Cell where
  val : CellValue
  numFmt : String
  fill : Nat
  font : Nat
  border : Nat
  protection : Nat
  alignH : Option String
  alignV : Option String
deriving DecidableEq

/-- An openpyxl merge range: the rectangle `[minRow, maxRow] × [minCol, maxCol]`
with anchor (top-left) cell `(minRow, minCol)`. -/
structure MergeRange where
  minRow : Nat
  minCol : Nat
  maxRow : Nat
  maxCol : Nat
deriving DecidableEq

/-- Membership of a coordinate in a merge range
(`rng.min_row <= row <= rng.max_row and rng.min_col <= col <= rng.max_col`). -/
def MergeRange.containsB (rg : MergeRange) (r c : Nat) : Bool :=
  decide (rg.minRow ≤ r) && decide (r ≤ rg.maxRow) &&
  decide (rg.minCol ≤ c) && decide (c ≤ rg.maxCol)

/-- A worksheet: total assignment of cells to 1-based coordinates, the
merge ranges, and the used dimensions (`ws.max_row`, `ws.max_column`). -/
structure Sheet where
  cell : Nat → Nat → Cell
  merges : List MergeRange
  maxRow : Nat
  maxCol : Nat

/-- Value of the cell at `(r, c)`. -/
def Sheet.val (ws : Sheet) (r c : Nat) : CellValue := (ws.cell r c).val

/-- Number format of the cell at `(r, c)`. -/
def Sheet.fmt (ws : Sheet) (r c : Nat) : String := (ws.cell r c).numFmt

/-- Fill token of the cell at `(r, c)`. -/
def Sheet.fillAt (ws : Sheet) (r c : Nat) : Nat := (ws.cell r c).fill

/-- Replace the cell at `(r, c)` by the image of an update function,
leaving every other cell, the merges and the dimensions unchanged. -/
def updCell (ws : Sheet) (r c : Nat) (u : Cell → Cell) : Sheet :=
  { ws with cell := fun r' c' => if r' = r ∧ c' = c then u (ws.cell r' c') else ws.cell r' c' }

/-- Assign a value to the cell at `(r, c)` (Python `cell.value = v`). -/
def setVal (ws : Sheet) (r c : Nat) (v : CellValue) : Sheet :=
  updCell ws r c (fun cl => { cl with val := v })

/-- Assign a number format to the cell at `(r, c)`. -/
def setFmt (ws : Sheet) (r c : Nat) (f : String) : Sheet :=
  updCell ws r c (fun cl => { cl with numFmt := f })

/-- Assign a fill to the cell at `(r, c)` (Python `cell.fill = fill`). -/
def setFill (ws : Sheet) (r c : Nat) (f : Nat) : Sheet :=
  updCell ws r c (fun cl => { cl with fill := f })

/-! ## Character-level string helpers (Python `str` operations) -/

/-- The whitespace characters recognised by Python's `str.strip` and by the
`\s` class of the copyright regular expression (ASCII subset). -/
def isSpaceCh (c : Char) : Bool :=
  c == ' ' || c == '\t' || c == '\n' || c == '\r' || c == '\x0b' || c == '\x0c'

/-- Python `str.strip()` on a character list. -/
def trimChars (l : List Char) : List Char :=
  ((l.dropWhile isSpaceCh).reverse.dropWhile isSpaceCh).reverse

/-- Python `str.strip()`. -/
def pyStrip (s : String) : String := String.mk (trimChars s.data)

/-- `listStarts l pat` holds when `pat` is an initial segment of `l`
(Python `str.startswith`). -/
def listStarts : List Char → List Char → Bool
  | _, [] => true
  | [], _ :: _ => false
  | a :: as, b :: bs => a == b && listStarts as bs

/-- `hasSub l pat` holds when `pat` occurs contiguously inside `l`
(Python `pat in l`). -/
def hasSub : List Char → List Char → Bool
  | [], pat => pat.isEmpty
  | l@(_ :: t), pat => listStarts l pat || hasSub t pat

/-- Decimal digit to character. -/
def digitChar : Nat → Char
  | 0 => '0' | 1 => '1' | 2 => '2' | 3 => '3' | 4 => '4'
  | 5 => '5' | 6 => '6' | 7 => '7' | 8 => '8' | 9 => '9'
  | _ => '*'

/-- Digit expansion of a positive natural number, most significant digit
first; the fuel argument makes the recursion structural. -/
def natDigitsAux : Nat → Nat → List Char
  | 0, _ => []
  | fuel + 1, n => if n = 0 then [] else natDigitsAux fuel (n / 10) ++ [digitChar (n % 10)]

/-- Decimal representation of a natural number (Python `str(n)` for `n >= 0`). -/
def natRepr (n : Nat) : String :=
  if n = 0 then "0" else String.mk (natDigitsAux (n + 1) n)

/-! ## Merge-range helpers (`_merged_top_left`, `set_value_merge_safe`,
`get_merged_secondary_checker`) -/

/-- Anchor lookup over a merge-range list: the first range containing
`(row, col)` yields its top-left coordinate (`_merged_top_left`, iterating
`ws.merged_cells.ranges` in order). -/
def mtlOf (merges : List MergeRange) (row col : Nat) : Option (Nat × Nat) :=
  (merges.find? (fun rg => rg.containsB row col)).map (fun rg => (rg.minRow, rg.minCol))

/-- `_merged_top_left(ws, row, col)`. -/
def mergedTopLeft (ws : Sheet) (row col : Nat) : Option (Nat × Nat) :=
  mtlOf ws.merges row col

/-- In openpyxl, the object at `(row, col)` is a `MergedCell` exactly when
the coordinate lies inside some merge range without being that range's
top-left anchor. -/
def mergedNonAnchor (merges : List MergeRange) (row col : Nat) : Bool :=
  merges.any (fun rg => rg.containsB row col && !(row == rg.minRow && col == rg.minCol))

/-- `set_value_merge_safe(ws, row, col, value)`: if the target is a
`MergedCell`, redirect the write to the top-left cell of its merge range
(returning `false` without writing if no range is found); otherwise write
directly.  The second component is the function's boolean result. -/
def set_value_merge_safe (ws : Sheet) (row col : Nat) (value : CellValue) : Sheet × Bool :=
  if mergedNonAnchor ws.merges row col then
    match mergedTopLeft ws row col with
    | none => (ws, false)
    | some rc => (setVal ws rc.1 rc.2 value, true)
  else (setVal ws row col value, true)

/-- The closure returned by `get_merged_secondary_checker(ws)`: scans the
captured merge-range list in order and reports whether `(row, col)` is a
non-anchor member of the first range that contains it. -/
def is_secondaryOf (merges : List MergeRange) (row col : Nat) : Bool :=
  match merges.find? (fun rg => rg.containsB row col) with
  | some rg => !(row == rg.minRow && col == rg.minCol)
  | none => false

/-! ## `is_numeric_like` -/

/-- `is_numeric_like(v)`: numbers are numeric-like; a string is
numeric-like when, after stripping, it is one of the sentinels `"-"`/`"X"`
or when deleting every `'.'`, `','` and `' '` leaves a non-empty digit
string. -/
def is_numeric_like (v : CellValue) : Bool :=
  match v with
  | .vNone => false
  | .vInt _ => true
  | .vFloat _ => true
  | .vStr s =>
    let t := pyStrip s
    if t = "-" || t = "X" then true
    else
      let s2 := t.data.filter (fun ch => !(ch == '.' || ch == ',' || ch == ' '))
      !s2.isEmpty && s2.all Char.isDigit

/-! ## Period resolution (`find_period_text`) -/

/-- `GER_MONTHS`. -/
def GER_MONTHS : List String :=
  ["Januar", "Februar", "März", "Maerz", "April", "Mai", "Juni",
   "Juli", "August", "September", "Oktober", "November", "Dezember"]

/-- `PERIOD_TOKENS`. -/
def PERIOD_TOKENS : List String :=
  ["Quartal", "Halbjahr", "Jahr", "Jahres", "Q1", "Q2", "Q3", "Q4", "H1", "H2", "JJ"]

/-- `re.search(r"(20\d{2})", s)`: the leftmost occurrence of `'2'`, `'0'`
followed by two digits; returns the four matched characters. -/
def searchYear20 : List Char → Option (List Char)
  | [] => none
  | ch :: rest =>
    match ch, rest with
    | '2', '0' :: a :: b :: _ =>
      if a.isDigit && b.isDigit then some ['2', '0', a, b] else searchYear20 rest
    | _, _ => searchYear20 rest

/-- `any(m in s for m in GER_MONTHS) or any(tok in s for tok in PERIOD_TOKENS)`. -/
def monthOrTokenHit (t : String) : Bool :=
  GER_MONTHS.any (fun m => hasSub t.data m.data) ||
  PERIOD_TOKENS.any (fun tok => hasSub t.data tok.data)

/-- `re.fullmatch(r"\D*" + year + r"\D*", s)`: the string is the four-digit
year surrounded only by non-digit characters.  Because the year starts with
a digit, a match forces the year to begin at the first digit of the string. -/
def yearOnlyMatch (l y : List Char) : Bool :=
  let a := l.takeWhile (fun c => !c.isDigit)
  let rest := l.drop a.length
  listStarts rest y && (rest.drop y.length).all (fun c => !c.isDigit)

/-- Per-cell candidate classification of `find_period_text`'s scan body:
strings only, stripped; requires a `20\d\d` year; a month/period-token hit
is collected verbatim, a year-only string is collected as `"Jahr <YYYY>"`. -/
def classifyPeriodCell (v : CellValue) : Option String :=
  match v with
  | .vStr s =>
    let t := pyStrip s
    if t = "" then none
    else
      match searchYear20 t.data with
      | none => none
      | some y =>
        if monthOrTokenHit t then some t
        else if yearOnlyMatch t.data y then some (String.mk ("Jahr ".data ++ y)) else none
  | _ => none

/-- Row-major coordinate enumeration of the rectangle
`[rLo, rLo+nR) × [cLo, cLo+nC)` — the order of the program's nested
`for r ... for c ...` loops. -/
def gridPts (rLo nR cLo nC : Nat) : List (Nat × Nat) :=
  (List.range' rLo nR).flatMap (fun r => (List.range' cLo nC).map (fun c => (r, c)))

/-- The header region scanned by `find_period_text` (defaults
`search_rows=40`, `search_cols=12`), in scan order. -/
def periodRegion (ws : Sheet) : List (Nat × Nat) :=
  gridPts 1 (min 40 ws.maxRow) 1 (min 12 ws.maxCol)

/-- `find_period_text(ws)`: collect candidates over the header region in
scan order and return the last one (`hits[-1] if hits else None`). -/
def find_period_text (ws : Sheet) : Option String :=
  ((periodRegion ws).filterMap (fun p => classifyPeriodCell (ws.val p.1 p.2))).getLast?

/-! ## Footer helpers -/

/-- `"Stand:" in v` for a cell value (string cells only). -/
def hasStandVal (v : CellValue) : Bool :=
  match v with
  | .vStr s => hasSub s.data "Stand:".data
  | _ => false

/-- `isinstance(v, str) and v.strip().startswith("Stand:")`. -/
def startsStandVal (v : CellValue) : Bool :=
  match v with
  | .vStr s => listStarts (pyStrip s).data "Stand:".data
  | _ => false

/-- `isinstance(v, str) and "(C)opyright" in v`. -/
def hasCopyrightVal (v : CellValue) : Bool :=
  match v with
  | .vStr s => hasSub s.data "(C)opyright".data
  | _ => false

/-- `extract_stand_from_raw(ws)`: scan rows bottom-up (at most 80 rows),
columns left-to-right, for the first string containing `"Stand:"`; return
it stripped. -/
def extract_stand_from_raw (ws : Sheet) : Option String :=
  let lo := max (ws.maxRow - 80) 1
  ((List.range' lo (ws.maxRow + 1 - lo)).reverse).findSome? (fun r =>
    (List.range' 1 ws.maxCol).findSome? (fun c =>
      match ws.val r c with
      | .vStr s => if hasSub s.data "Stand:".data then some (pyStrip s) else none
      | _ => none))

/-- `get_last_data_col(ws, end_row, max_scan_col=30)`: right-most column
index `<= min(30, max_column)` holding a value other than `None`/`""` in
rows `1..max(1, end_row)`; defaults to 1. -/
def get_last_data_col (ws : Sheet) (endRow : Nat) : Nat :=
  let endR := max 1 endRow
  let maxC := min 30 ws.maxCol
  (gridPts 1 endR 1 maxC).foldl
    (fun last p =>
      if (match ws.val p.1 p.2 with
          | .vNone => false
          | .vStr s => !(s == "")
          | _ => true) then max last p.2 else last) 1

/-! ## The copyright-year rewrite (`re.sub(r"\(C\)opyright\s+\d{4}", ...)`) -/

/-- The literal part of the copyright pattern. -/
def copyrightLit : List Char := "(C)opyright".data

/-- Strip a literal pattern from the front of a character list. -/
def stripLitPfx : List Char → List Char → Option (List Char)
  | l, [] => some l
  | [], _ :: _ => none
  | a :: as, b :: bs => if a == b then stripLitPfx as bs else none

/-- After the literal `"(C)opyright"`: consume `\s+` then exactly four
digits, returning the remainder of the string. -/
def matchCYTail (l : List Char) : Option (List Char) :=
  let sp := l.takeWhile isSpaceCh
  if sp.isEmpty then none
  else
    match l.drop sp.length with
    | d1 :: d2 :: d3 :: d4 :: r =>
      if d1.isDigit && d2.isDigit && d3.isDigit && d4.isDigit then some r else none
    | _ => none

/-- Match `\(C\)opyright\s+\d{4}` at the head of a character list,
returning the remainder after the match. -/
def matchCY (l : List Char) : Option (List Char) :=
  match stripLitPfx l copyrightLit with
  | none => none
  | some rest => matchCYTail rest

/-- Left-to-right scan of `re.sub`: at each position, replace a pattern
match by `repl` and continue after it, else keep the character.  The fuel
argument (initially the string length) makes the recursion structural;
each step consumes at least one character, so the fuel never runs out. -/
def rewriteCYChars (repl : List Char) : Nat → List Char → List Char
  | 0, l => l
  | _ + 1, [] => []
  | fuel + 1, ch :: rest =>
    match matchCY (ch :: rest) with
    | some r => repl ++ rewriteCYChars repl fuel r
    | none => ch :: rewriteCYChars repl fuel rest

/-- `re.sub(r"\(C\)opyright\s+\d{4}", f"(C)opyright {current_year}", s)`. -/
def rewriteCopyrightYear (s : String) (currentYear : Nat) : String :=
  String.mk (rewriteCYChars ("(C)opyright ".data ++ (natRepr currentYear).data)
    s.data.length s.data)

/-! ## `update_footer_with_stand_and_copyright` -/

/-- The bottom-up scan for the copyright row: last row whose first column
holds a string containing `"(C)opyright"` (also `_find_copyright_row`). -/
def find_copyright_row (ws : Sheet) : Option Nat :=
  ((List.range' 1 ws.maxRow).reverse).find? (fun r => hasCopyrightVal (ws.val r 1))

/-- Year rewrite applied to the copyright cell's value. -/
def rewriteCopyrightCell (v : CellValue) (cy : Nat) : CellValue :=
  match v with
  | .vStr s => .vStr (rewriteCopyrightYear s cy)
  | v => v

/-- One step of the stamp-removal sweep: a string cell whose stripped text
starts with `"Stand:"`, outside the copyright row, is overwritten with `""`. -/
def stampRemovalStep (cr : Nat) (acc : Sheet) (p : Nat × Nat) : Sheet :=
  if startsStandVal (acc.val p.1 p.2) && decide (p.1 ≠ cr) then
    setVal acc p.1 p.2 (.vStr "") else acc

/-- The target column resolved for the as-of stamp, given the sheet after
stamp removal and the copyright row: the first column of the copyright row
containing `"Stand:"`, else the right-most non-empty data column above the
copyright row. -/
def resolvedStandCol (ws2 : Sheet) (cr : Nat) : Nat :=
  match (List.range' 1 ws2.maxCol).find? (fun c => hasStandVal (ws2.val cr c)) with
  | some c => c
  | none => get_last_data_col ws2 (cr - 1)

/-- `update_footer_with_stand_and_copyright(ws, stand_text)` with the
current year as an explicit parameter: find the copyright row bottom-up
and rewrite its year; if none exists return unchanged; blank every
stripped-`"Stand:"` string outside the copyright row; if `stand_text` is
falsy stop; otherwise write `stand_text` at the resolved stamp column of
the copyright row, copying font/border/fill/number-format/protection from
the copyright cell and forcing right alignment. -/
def update_footer_with_stand_and_copyright (ws : Sheet) (standText : Option String)
    (cy : Nat) : Sheet :=
  match find_copyright_row ws with
  | none => ws
  | some cr =>
    let ws1 := setVal ws cr 1 (rewriteCopyrightCell (ws.val cr 1) cy)
    let ws2 := (gridPts 1 ws.maxRow 1 ws.maxCol).foldl (stampRemovalStep cr) ws1
    match standText with
    | none => ws2
    | some st =>
      if st = "" then ws2
      else
        let sc := resolvedStandCol ws2 cr
        let cop := ws2.cell cr 1
        updCell ws2 cr sc (fun _tc =>
          { val := .vStr st, numFmt := cop.numFmt, fill := cop.fill, font := cop.font,
            border := cop.border, protection := cop.protection,
            alignH := some "right", alignV := cop.alignV })

/-! ## Row marking and number formatting -/

/-- The marker test of `mark_cells_with_1_or_2`: a numeric value equal to
1 or 2, or a string stripping to `"1"` or `"2"`. -/
def isMark12 (v : CellValue) : Bool :=
  match v with
  | .vInt n => n == 1 || n == 2
  | .vFloat q => q == 1 || q == 2
  | .vStr s => pyStrip s = "1" || pyStrip s = "2"
  | .vNone => false

/-- `mark_cells_with_1_or_2(ws, col_index, fill)`: for every row, set the
fill of the cell at `col_index` when its value is a 1/2 marker. -/
def mark_cells_with_1_or_2 (ws : Sheet) (colIndex fill : Nat) : Sheet :=
  (List.range' 1 ws.maxRow).foldl
    (fun acc r => if isMark12 (acc.val r colIndex) then setFill acc r colIndex fill else acc) ws

/-- Python's `round` on a float: round half to even. -/
def pyRound (q : ℚ) : Int :=
  let f : Int := ⌊q⌋
  let r : ℚ := q - f
  if r < 1/2 then f
  else if r > 1/2 then f + 1
  else if f % 2 = 0 then f else f + 1

/-- The grouped integer number format built in `format_numeric_cells`
(`pos`, `neg` and zero sections). -/
def intFmtStr : String :=
  "#\\ ###\\ ###\\ ###\\ ###\\ ##0" ++ ";" ++ "-\\ " ++ "#\\ ###\\ ###\\ ###\\ ###\\ ##0" ++ ";0"

/-- One cell of `format_numeric_cells`: columns in `skip_cols` are left
alone; `None` and the sentinels `"-"`/`"X"` (and any other string) are
left alone; an int keeps its value and gets the grouped format; a float is
replaced by `int(round(v))` and gets the grouped format. -/
def formatNumericStep (skipCols : List Nat) (acc : Sheet) (p : Nat × Nat) : Sheet :=
  if p.2 ∈ skipCols then acc
  else
    match acc.val p.1 p.2 with
    | .vNone => acc
    | .vStr _ => acc
    | .vInt _ => setFmt acc p.1 p.2 intFmtStr
    | .vFloat q => setFmt (setVal acc p.1 p.2 (.vInt (pyRound q))) p.1 p.2 intFmtStr

/-- `format_numeric_cells(ws, skip_cols)`: the cell-wise sweep over the
whole used range (`ws.iter_rows()`). -/
def format_numeric_cells (ws : Sheet) (skipCols : List Nat) : Sheet :=
  (gridPts 1 ws.maxRow 1 ws.maxCol).foldl (formatNumericStep skipCols) ws

/-- The percent number format `"0.0;-0.0;0"`. -/
def pctFmtStr : String := "0.0;-0.0;0"

/-- One row of `format_percent_column`: skip `None`, the sentinels and
non-numeric strings; assign the percent format to numeric cells (values
are not changed). -/
def formatPctStep (colIndex : Nat) (acc : Sheet) (r : Nat) : Sheet :=
  match acc.val r colIndex with
  | .vInt _ => setFmt acc r colIndex pctFmtStr
  | .vFloat _ => setFmt acc r colIndex pctFmtStr
  | _ => acc

/-- `format_percent_column(ws, col_index)`: walk the column applying
`formatPctStep` to every row. -/
def format_percent_column (ws : Sheet) (colIndex : Nat) : Sheet :=
  (List.range' 1 ws.maxRow).foldl (formatPctStep colIndex) ws

/-! ## Data-block and footer detection -/

/-- Does row `r` hold a numeric-like value in some column `>= cStart`? -/
def rowHasNumericFrom (ws : Sheet) (r cStart : Nat) : Bool :=
  (List.range' cStart (ws.maxCol + 1 - cStart)).any (fun c => is_numeric_like (ws.val r c))

/-- Does the first column of row `r` hold a string that, stripped, starts
with `"-"`? -/
def startsDashRow (ws : Sheet) (r : Nat) : Bool :=
  match ws.val r 1 with
  | .vStr s => listStarts (pyStrip s).data "-".data
  | _ => false

/-- `detect_data_and_footer_tab1(sheet)`: first data row = first row with a
numeric-like cell in columns `2..max_column` (default 1); footnote start =
first row whose first column starts with `"-"` (default `max_row + 1`). -/
def detect_data_and_footer_tab1 (ws : Sheet) : Nat × Nat :=
  let firstData := ((List.range' 1 ws.maxRow).find? (fun r => rowHasNumericFrom ws r 2)).getD 1
  let footnote :=
    ((List.range' 1 ws.maxRow).find? (fun r => startsDashRow ws r)).getD (ws.maxRow + 1)
  (firstData, footnote)

/-- `detect_data_and_footer_tab2_3(sheet)`: as for table 1, but
numeric-likeness is tested from column 3 onward. -/
def detect_data_and_footer_tab2_3 (ws : Sheet) : Nat × Nat :=
  let firstData := ((List.range' 1 ws.maxRow).find? (fun r => rowHasNumericFrom ws r 3)).getD 1
  let footnote :=
    ((List.range' 1 ws.maxRow).find? (fun r => startsDashRow ws r)).getD (ws.maxRow + 1)
  (firstData, footnote)

/-! ## Table builders and the annual (`-JJ`) external branch

Workbook loading and saving are outside the model: a builder takes the
raw sheet and the layout-template sheet as inputs and returns the
populated output sheet.  The raw workbook is loaded once with
`data_only=True` and once plainly; both views are represented by the same
`Sheet` (cached values).  openpyxl grows `max_row`/`max_column` when a
cell outside the used range is touched; the model keeps the dimensions
fixed, which is observationally equivalent for cell values, number
formats and fills because every grown cell is created empty and every
sweep skips empty cells. -/

/-- `INTERNAL_HEADER_TEXT`. -/
def INTERNAL_HEADER_TEXT : String := "NUR FÜR DEN INTERNEN DIENSTGEBRAUCH"

/-- A `None`-or-string value as written by `set_value_merge_safe(ws, r, 1, period_text)`. -/
def optStrVal : Option String → CellValue
  | none => .vNone
  | some s => .vStr s

/-- One cell of the shared transcription loop: skip secondary merged
cells of the template (checker captured from the template's merge list),
otherwise copy the raw value merge-safely. -/
def transcribeStep (wsRaw : Sheet) (M : List MergeRange) (fdrRaw fdrOut : Nat)
    (acc : Sheet) (p : Nat × Nat) : Sheet :=
  if is_secondaryOf M (fdrOut + p.1) p.2 then acc
  else (set_value_merge_safe acc (fdrOut + p.1) p.2 (wsRaw.val (fdrRaw + p.1) p.2)).1

/-- The shared transcription loop of `build_table1_workbook` (columns from
1) and `build_table2_3_workbook` (columns from `START_COL_COPY = 2`):
for each offset below `nRows` and each column from `cStart` to the
template's `max_column`, apply `transcribeStep`. -/
def transcribeLoop (wsRaw wsOut : Sheet) (fdrRaw fdrOut nRows cStart : Nat) : Sheet :=
  (gridPts 0 nRows cStart (wsOut.maxCol + 1 - cStart)).foldl
    (transcribeStep wsRaw wsOut.merges fdrRaw fdrOut) wsOut

/-- `build_table1_workbook(raw_path, layout_path, internal_layout)` with
the current year explicit: header/period writes, block detection on both
sheets, `n_rows = min(max(0, ft_raw - fdr_raw), max(0, ft_out - fdr_out))`,
transcription over all columns, footer normalization, percent format on
column 9 and integer formats elsewhere. -/
def build_table1_workbook (raw layout : Sheet) (internalLayout : Bool) (cy : Nat) : Sheet :=
  let periodText := find_period_text raw
  let standText := extract_stand_from_raw raw
  let ws1 :=
    if internalLayout then
      (set_value_merge_safe
        (set_value_merge_safe layout 1 1 (.vStr INTERNAL_HEADER_TEXT)).1 5 1
        (optStrVal periodText)).1
    else (set_value_merge_safe layout 3 1 (optStrVal periodText)).1
  let fd := detect_data_and_footer_tab1 raw
  let fo := detect_data_and_footer_tab1 ws1
  let nRows := min (fd.2 - fd.1) (fo.2 - fo.1)
  let ws2 := transcribeLoop raw ws1 fd.1 fo.1 nRows 1
  let ws3 := update_footer_with_stand_and_copyright ws2 standText cy
  let ws4 := format_percent_column ws3 9
  format_numeric_cells ws4 [9]

/-- `build_table2_3_workbook(table_no, raw_path, layout_path,
internal_layout)` with the current year explicit: period row depends on
the table number, the layout variant and (externally) on whether the
period is a year; transcription from column 2; percent column 7. -/
def build_table2_3_workbook (tableNo : Nat) (raw layout : Sheet) (internalLayout : Bool)
    (cy : Nat) : Sheet :=
  let periodText := find_period_text raw
  let standText := extract_stand_from_raw raw
  let isYear :=
    match periodText with
    | some s => listStarts (pyStrip s).data "Jahr ".data
    | none => false
  let ws1 :=
    if internalLayout then
      let a := (set_value_merge_safe layout 1 1 (.vStr INTERNAL_HEADER_TEXT)).1
      if tableNo = 2 then (set_value_merge_safe a 6 1 (optStrVal periodText)).1
      else (set_value_merge_safe a 5 1 (optStrVal periodText)).1
    else
      if tableNo = 2 then
        (set_value_merge_safe layout (if isYear then 6 else 4) 1 (optStrVal periodText)).1
      else
        (set_value_merge_safe layout (if isYear then 5 else 3) 1 (optStrVal periodText)).1
  let fd := detect_data_and_footer_tab2_3 raw
  let fo := detect_data_and_footer_tab2_3 ws1
  let nRows := min (fd.2 - fd.1) (fo.2 - fo.1)
  let ws2 := transcribeLoop raw ws1 fd.1 fo.1 nRows 2
  let ws3 := update_footer_with_stand_and_copyright ws2 standText cy
  let ws4 := format_percent_column ws3 7
  format_numeric_cells ws4 [7]

/-- `isinstance(v, str)` test of `clear_existing_footer_markers`:
stripped text contains `"(C)opyright"` or starts with `"Stand:"`. -/
def isFooterMarkerVal (v : CellValue) : Bool :=
  match v with
  | .vStr s =>
    hasSub (pyStrip s).data copyrightLit || listStarts (pyStrip s).data "Stand:".data
  | _ => false

/-- One cell of `clear_existing_footer_markers`: blank (merge-safely) a
cell whose stripped string contains `"(C)opyright"` or starts with
`"Stand:"`. -/
def clearFooterStep (acc : Sheet) (p : Nat × Nat) : Sheet :=
  if isFooterMarkerVal (acc.val p.1 p.2) then
    (set_value_merge_safe acc p.1 p.2 (.vStr "")).1
  else acc

/-- `clear_existing_footer_markers(ws)`: apply `clearFooterStep` to every
cell of the used range. -/
def clear_existing_footer_markers (ws : Sheet) : Sheet :=
  (gridPts 1 ws.maxRow 1 ws.maxCol).foldl clearFooterStep ws

/-- One column of `copy_footer_row_from_intern`: skip secondary merged
target cells; write the source value merge-safely; copy the source cell's
styles onto the resolved (anchor) target cell. -/
def copyFooterCellStep (wsTarget0 wsIntern : Sheet) (rSrc rTgt : Nat) (acc : Sheet)
    (c : Nat) : Sheet :=
  if is_secondaryOf wsTarget0.merges rTgt c then acc
  else
    let srcCell := wsIntern.cell rSrc c
    let acc1 := (set_value_merge_safe acc rTgt c srcCell.val).1
    let q := (mtlOf wsTarget0.merges rTgt c).getD (rTgt, c)
    updCell acc1 q.1 q.2 (fun tc =>
      { val := tc.val, numFmt := srcCell.numFmt, fill := srcCell.fill, font := srcCell.font,
        border := srcCell.border, protection := srcCell.protection,
        alignH := srcCell.alignH, alignV := srcCell.alignV })

/-- `copy_footer_row_from_intern(ws_target, ws_intern, row_shift_up)`:
copy the complete copyright row of the internal artifact into the target
sheet, `row_shift_up` rows higher (clamped at row 1); no-op when the
internal artifact has no copyright row. -/
def copy_footer_row_from_intern (wsTarget wsIntern : Sheet) (rowShiftUp : Nat) : Sheet :=
  match find_copyright_row wsIntern with
  | none => wsTarget
  | some rSrc =>
    let rTgt := max 1 (rSrc - rowShiftUp)
    let maxC := max wsIntern.maxCol wsTarget.maxCol
    (List.range' 1 maxC).foldl (copyFooterCellStep wsTarget wsIntern rSrc rTgt) wsTarget

/-- Token for `PatternFill(start_color="FFFF99", end_color="FFFF99",
fill_type="solid")`. -/
def jjFill : Nat := 1

/-- `re.fullmatch(r"\d{4}", s)`. -/
def isDigits4 (s : String) : Bool :=
  s.data.length == 4 && s.data.all Char.isDigit

/-- The external (`_g`) artifact produced by `process_table1_file`:
for an annual (`-JJ`) input, start from a fresh copy of the raw sheet,
rewrite the period label at (3, 1), clear existing footer markers, copy
the internal footer row two rows higher, normalize the footer and
highlight marker column 7; otherwise build from the external layout. -/
def process_table1_external (raw layoutExt layoutInt : Sheet) (isJJ : Bool) (cy : Nat) : Sheet :=
  if isJJ then
    let wsIntern := build_table1_workbook raw layoutInt true cy
    let periodText := find_period_text raw
    let wsG1 :=
      match periodText with
      | some p =>
        if p = "" then raw
        else
          let s := pyStrip p
          let s2 := if isDigits4 s then String.mk ("Jahr ".data ++ s.data) else s
          (set_value_merge_safe raw 3 1 (.vStr s2)).1
      | none => raw
    let wsG2 := clear_existing_footer_markers wsG1
    let wsG3 := copy_footer_row_from_intern wsG2 wsIntern 2
    let wsG4 := update_footer_with_stand_and_copyright wsG3 (extract_stand_from_raw raw) cy
    mark_cells_with_1_or_2 wsG4 7 jjFill
  else build_table1_workbook raw layoutExt false cy

/-- The external (`_g`) artifact produced by `process_table2_or_3_file`:
for an annual (`-JJ`) input, reuse the already-built internal workbook,
blank cell (1, 1) and highlight marker column 5; otherwise build from the
external layout. -/
def process_table2_3_external (tableNo : Nat) (raw layoutExt layoutInt : Sheet)
    (isJJ : Bool) (cy : Nat) : Sheet :=
  if isJJ then
    let wsI := build_table2_3_workbook tableNo raw layoutInt true cy
    mark_cells_with_1_or_2 (setVal wsI 1 1 .vNone) 5 jjFill
  else build_table2_3_workbook tableNo raw layoutExt false cy

/-- The annual post-processing of `process_table5_file` applied to the
sheets of the already-built internal workbook: blank cell (1, 1) and
highlight marker column 6 on every sheet. -/
def process_table5_jj_post (sheets : List Sheet) : List Sheet :=
  sheets.map (fun ws => mark_cells_with_1_or_2 (setVal ws 1 1 .vNone) 6 jjFill)

/-! ## Display semantics of the percent format -/

/-- Modelled from the spec: Excel's rendering of the number format
`"0.0;-0.0;0"` that `format_percent_column` assigns (the display engine is
Excel itself, external to the repository).  An exact zero uses the third
section and renders as `"0"`; a non-zero value uses the one-decimal
positive or negative section, rounding the magnitude to one decimal. -/
def renderPct (q : ℚ) : String :=
  if q = 0 then "0"
  else
    let n : Int := ⌊|q| * 10 + 1/2⌋
    (if q < 0 then "-" else "") ++ natRepr (n.toNat / 10) ++ "." ++
      String.mk [digitChar (n.toNat % 10)]

/-- The displayed text of a cell carrying the percent format, when the
value is numeric. -/
def displayPctCell (cl : Cell) : Option String :=
  if cl.numFmt = pctFmtStr then
    match cl.val with
    | .vInt n => some (renderPct (n : ℚ))
    | .vFloat q => some (renderPct q)
    | _ => none
  else none

/-! ## Concrete worksheets used as witnesses and counterexamples -/

/-- The default (empty) cell of concrete test sheets. -/
def blankCell : Cell :=
  { val := .vNone, numFmt := "General", fill := 0, font := 0, border := 0,
    protection := 0, alignH := none, alignV := none }

/-- Build a concrete sheet from a list of `(row, col, value)` entries. -/
def mkSheet (mr mc : Nat) (merges : List MergeRange)
    (entries : List (Nat × Nat × CellValue)) : Sheet :=
  { cell := fun r c =>
      match entries.find? (fun e => e.1 == r && e.2.1 == c) with
      | some e => { blankCell with val := e.2.2 }
      | none => blankCell,
    merges := merges, maxRow := mr, maxCol := mc }

/-- Sheet with one 2×2 merge range anchored at (1, 1). -/
def exC1sheet : Sheet :=
  mkSheet 2 3 [⟨1, 1, 2, 2⟩] [(1, 1, .vStr "anchor"), (2, 3, .vInt 5)]

/-- Marker row: the marker column 2 holds `1`; columns 1 and 3 are in the
used width. -/
def exC4sheet : Sheet := mkSheet 1 3 [] [(1, 2, .vInt 1)]

/-- A copyright row carrying two as-of stamps of its own. -/
def exC5sheet : Sheet :=
  mkSheet 2 3 []
    [(2, 1, .vStr "(C)opyright 2020 StLA"), (2, 2, .vStr "Stand: 01.01.2020"),
     (2, 3, .vStr "Stand: 02.02.2020")]

/-- A single header cell whose text is a year wrapped in non-digits. -/
def exC6sheet : Sheet := mkSheet 1 1 [] [(1, 1, .vStr "- 2025")]

/-- A sheet with a `"Total"` label in the label column of row 5, a numeric
cell in row 2, and a copyright row at row 4 (no `"-"` footnote row). -/
def exC7sheet : Sheet :=
  mkSheet 5 3 [] [(5, 1, .vStr "Total"), (2, 2, .vInt 7), (4, 1, .vStr "(C)opyright 2020")]

/-- Raw sheet for the annual table-2 counterexample: it carries a value in
column 9, beyond the internal layout's used width. -/
def exC3raw : Sheet :=
  mkSheet 3 9 [] [(2, 9, .vInt 77), (2, 3, .vInt 1), (3, 3, .vInt 2)]

/-- Internal layout template for the annual table-2 counterexample (used
width 4 columns). -/
def exC3int : Sheet := mkSheet 3 4 [] [(2, 3, .vInt 5)]

/-- External layout template for the annual table-2 counterexample
(ignored by the annual branch). -/
def exC3ext : Sheet := mkSheet 1 1 [] []

/-- Raw sheet for the transcription witness: data block rows 2..4. -/
def exC2raw : Sheet := mkSheet 4 2 [] [(2, 2, .vInt 3), (4, 2, .vInt 8)]

/-- Template sheet for the transcription witness: data block rows 3..4. -/
def exC2out : Sheet := mkSheet 4 2 [] [(3, 2, .vInt 9), (1, 1, .vStr "Kopf")]

/-- Sheet for the footer-normalization witness: copyright row 3, a
stale stamp at (1, 2), data at (2, 3). -/
def exC5W : Sheet :=
  mkSheet 3 3 []
    [(3, 1, .vStr "(C)opyright 2019 X"), (1, 2, .vStr "Stand: alt"), (2, 3, .vInt 4)]

/-- Sheet for the period-resolver witness: two month candidates, the later
one in scan order wins. -/
def exC6W : Sheet :=
  mkSheet 2 2 [] [(1, 1, .vStr "Dezember 2024"), (2, 1, .vStr "Januar 2025")]

/-- Sheet for the detection witness: numeric data in row 2, a footnote
dash row at row 3. -/
def exC7W : Sheet := mkSheet 3 3 [] [(2, 2, .vInt 7), (3, 1, .vStr "- Fußnote")]

/-- Sheet for the percent-format witness: an integer in the percent
column 2 of row 1. -/
def exC8sheet : Sheet := mkSheet 2 2 [] [(1, 2, .vInt 5), (2, 2, .vStr "X")]

/-- Sheet without any copyright marker in column 1. -/
def exC9sheet : Sheet := mkSheet 2 2 [] [(1, 1, .vStr "hello"), (2, 2, .vStr "Stand: x")]

/-- Sheet holding the float `0.5` (rounds to 0, half to even). -/
def exC10A : Sheet := mkSheet 1 1 [] [(1, 1, .vFloat (1/2))]

/-- Sheet holding the float `0.4` (also rounds to 0): formatting erases
the difference from `exC10A`. -/
def exC10B : Sheet := mkSheet 1 1 [] [(1, 1, .vFloat (2/5))]

/-- Raw sheet for the annual table-1 witness: it keeps an analytic value
at (3, 2) that only the raw-derived external artifact can preserve. -/
def exC3t1raw : Sheet :=
  mkSheet 4 3 [] [(2, 2, .vInt 3), (3, 2, .vInt 9), (4, 1, .vStr "(C)opyright 2020 L")]

/-- Internal layout for the annual table-1 witness. -/
def exC3t1int : Sheet :=
  mkSheet 4 3 [] [(2, 2, .vInt 1), (4, 1, .vStr "(C)opyright 2020 T")]

/-- The coordinate actually written by `set_value_merge_safe` over the
merge-range list `M` (or `none` when the write is dropped). -/
def svmsTarget (M : List MergeRange) (row col : Nat) : Option (Nat × Nat) :=
  if mergedNonAnchor M row col then mtlOf M row col else some (row, col)

/-- Is the value a Python number (`isinstance(v, (int, float))`)? -/
def isNumericCellVal : CellValue → Bool
  | .vInt _ => true
  | .vFloat _ => true
  | _ => false

/-! # Lemmas: cell updates -/

theorem updCell_merges (ws : Sheet) (r c : Nat) (u : Cell → Cell) :
    (updCell ws r c u).merges = ws.merges := rfl

theorem updCell_maxRow (ws : Sheet) (r c : Nat) (u : Cell → Cell) :
    (updCell ws r c u).maxRow = ws.maxRow := rfl

theorem updCell_maxCol (ws : Sheet) (r c : Nat) (u : Cell → Cell) :
    (updCell ws r c u).maxCol = ws.maxCol := rfl

theorem updCell_cell_self (ws : Sheet) (r c : Nat) (u : Cell → Cell) :
    (updCell ws r c u).cell r c = u (ws.cell r c) := by
  simp [updCell]

theorem updCell_cell_ne (ws : Sheet) (r c : Nat) (u : Cell → Cell) (r' c' : Nat)
    (h : ¬(r' = r ∧ c' = c)) :
    (updCell ws r c u).cell r' c' = ws.cell r' c' := by
  simp [updCell, h]

theorem setVal_merges (ws : Sheet) (r c : Nat) (v : CellValue) :
    (setVal ws r c v).merges = ws.merges := rfl

theorem setVal_cell_self (ws : Sheet) (r c : Nat) (v : CellValue) :
    (setVal ws r c v).cell r c = { ws.cell r c with val := v } := by
  simp [setVal, updCell_cell_self]

theorem setVal_cell_ne (ws : Sheet) (r c : Nat) (v : CellValue) (r' c' : Nat)
    (h : ¬(r' = r ∧ c' = c)) :
    (setVal ws r c v).cell r' c' = ws.cell r' c' := by
  simp [setVal, updCell_cell_ne _ _ _ _ _ _ h]

/-! # Lemmas: `find?` over ranges -/

theorem find?_range'_some (s n : Nat) (p : Nat → Bool) (k : Nat)
    (h : (List.range' s n).find? p = some k) :
    s ≤ k ∧ k < s + n ∧ p k = true ∧ ∀ j, s ≤ j → j < k → p j = false := by
  induction n generalizing s with
  | zero => simp [List.range'] at h
  | succ m ih =>
    rw [List.range'_succ] at h
    cases hp : p s with
    | true =>
      rw [List.find?_cons_of_pos _ hp] at h
      obtain rfl : s = k := by simpa using h
      exact ⟨le_rfl, by omega, hp, fun j h1 h2 => absurd (lt_of_le_of_lt h1 h2) (lt_irrefl _)⟩
    | false =>
      rw [List.find?_cons_of_neg _ (by simp [hp])] at h
      obtain ⟨h1, h2, h3, h4⟩ := ih (s + 1) h
      refine ⟨by omega, by omega, h3, fun j hj1 hj2 => ?_⟩
      rcases Nat.eq_or_lt_of_le hj1 with rfl | hlt
      · exact hp
      · exact h4 j hlt hj2

theorem find?_range'_none (s n : Nat) (p : Nat → Bool)
    (h : ∀ j, s ≤ j → j < s + n → p j = false) :
    (List.range' s n).find? p = none := by
  rw [List.find?_eq_none]
  intro x hx
  have hb := List.mem_range'_1.mp hx
  simp [h x hb.1 hb.2]

theorem range'_snoc (s n : Nat) : List.range' s (n + 1) = List.range' s n ++ [s + n] := by
  have h := List.range'_append s n 1 1
  rw [show s + 1 * n = s + n from by omega, show 1 + n = n + 1 from by omega] at h
  simpa using h.symm

theorem find?_rev_range'_some (s n : Nat) (p : Nat → Bool) (k : Nat)
    (h : ((List.range' s n).reverse).find? p = some k) :
    s ≤ k ∧ k < s + n ∧ p k = true ∧ ∀ j, k < j → j < s + n → p j = false := by
  induction n with
  | zero => simp [List.range'] at h
  | succ m ih =>
    rw [range'_snoc, List.reverse_append] at h
    simp only [List.reverse_singleton, List.singleton_append] at h
    cases hp : p (s + m) with
    | true =>
      rw [List.find?_cons_of_pos _ hp] at h
      obtain rfl : s + m = k := by simpa using h
      exact ⟨by omega, by omega, hp, fun j h1 h2 => by omega⟩
    | false =>
      rw [List.find?_cons_of_neg _ (by simp [hp])] at h
      obtain ⟨h1, h2, h3, h4⟩ := ih h
      refine ⟨h1, by omega, h3, fun j hj1 hj2 => ?_⟩
      by_cases hj : j = s + m
      · exact hj ▸ hp
      · exact h4 j hj1 (by omega)

theorem find?_rev_range'_none (s n : Nat) (p : Nat → Bool)
    (h : ∀ j, s ≤ j → j < s + n → p j = false) :
    ((List.range' s n).reverse).find? p = none := by
  rw [List.find?_eq_none]
  intro x hx
  rw [List.mem_reverse] at hx
  have hb := List.mem_range'_1.mp hx
  simp [h x hb.1 hb.2]

theorem find?_mem_exists {α : Type} (p : α → Bool) (l : List α) (a : α)
    (ha : a ∈ l) (hp : p a = true) : ∃ b, l.find? p = some b :=
  Option.isSome_iff_exists.mp (List.find?_isSome.mpr ⟨a, ha, hp⟩)

/-! # Lemmas: splitting coordinate enumerations -/

theorem range'_split (s n k : Nat) (h1 : s ≤ k) (h2 : k < s + n) :
    List.range' s n = List.range' s (k - s) ++ k :: List.range' (k + 1) (s + n - k - 1) := by
  have hc : k :: List.range' (k + 1) (s + n - k - 1) = List.range' k (s + n - k) := by
    rw [show s + n - k = (s + n - k - 1) + 1 from by omega, List.range'_succ]
    simp
  have ha : List.range' s (k - s) ++ List.range' k (s + n - k) = List.range' s n := by
    have h := List.range'_append s (k - s) (s + n - k) 1
    rw [show s + 1 * (k - s) = k from by omega,
      show (s + n - k) + (k - s) = n from by omega] at h
    exact h
  rw [← ha, ← hc]

theorem mem_gridPts (rLo nR cLo nC r c : Nat) :
    (r, c) ∈ gridPts rLo nR cLo nC ↔
      (rLo ≤ r ∧ r < rLo + nR) ∧ (cLo ≤ c ∧ c < cLo + nC) := by
  simp only [gridPts, List.mem_flatMap, List.mem_map, List.mem_range'_1]
  constructor
  · rintro ⟨a, ha, b, hb, heq⟩
    obtain ⟨rfl, rfl⟩ : a = r ∧ b = c := by
      constructor <;> [exact congrArg Prod.fst heq; exact congrArg Prod.snd heq]
    exact ⟨ha, hb⟩
  · rintro ⟨hr, hc⟩
    exact ⟨r, hr, c, hc, rfl⟩

theorem gridPts_split (rLo nR cLo nC r c : Nat)
    (hr1 : rLo ≤ r) (hr2 : r < rLo + nR) (hc1 : cLo ≤ c) (hc2 : c < cLo + nC) :
    ∃ l₁ l₂, gridPts rLo nR cLo nC = l₁ ++ (r, c) :: l₂ ∧
      (∀ p ∈ l₁, p ≠ (r, c)) ∧ (∀ p ∈ l₂, p ≠ (r, c)) := by
  have hmid : (List.range' cLo nC).map (fun c' => (r, c')) =
      (List.range' cLo (c - cLo)).map (fun c' => (r, c')) ++ (r, c) ::
        (List.range' (c + 1) (cLo + nC - c - 1)).map (fun c' => (r, c')) := by
    conv_lhs => rw [range'_split cLo nC c hc1 hc2]
    rw [List.map_append, List.map_cons]
  refine ⟨gridPts rLo (r - rLo) cLo nC ++ (List.range' cLo (c - cLo)).map (fun c' => (r, c')),
          (List.range' (c + 1) (cLo + nC - c - 1)).map (fun c' => (r, c')) ++
            gridPts (r + 1) (rLo + nR - r - 1) cLo nC, ?_, ?_, ?_⟩
  · show gridPts rLo nR cLo nC = _
    unfold gridPts
    conv_lhs => rw [range'_split rLo nR r hr1 hr2]
    rw [List.flatMap_append, List.flatMap_cons, hmid]
    simp [List.append_assoc]
  · intro p hp
    rcases List.mem_append.mp hp with hp1 | hp2
    · obtain ⟨p1, p2⟩ := p
      have hb := (mem_gridPts rLo (r - rLo) cLo nC p1 p2).mp hp1
      intro he
      have : p1 = r := congrArg Prod.fst he
      omega
    · obtain ⟨c', hc', heq⟩ := List.mem_map.mp hp2
      have hb := List.mem_range'_1.mp hc'
      intro he
      rw [← heq] at he
      have : c' = c := congrArg Prod.snd he
      omega
  · intro p hp
    rcases List.mem_append.mp hp with hp1 | hp2
    · obtain ⟨c', hc', heq⟩ := List.mem_map.mp hp1
      have hb := List.mem_range'_1.mp hc'
      intro he
      rw [← heq] at he
      have : c' = c := congrArg Prod.snd he
      omega
    · obtain ⟨p1, p2⟩ := p
      have hb := (mem_gridPts (r + 1) (rLo + nR - r - 1) cLo nC p1 p2).mp hp2
      intro he
      have : p1 = r := congrArg Prod.fst he
      omega

/-! # Lemmas: folds over sheets -/

theorem foldl_merges_const {α : Type} (step : Sheet → α → Sheet) (ps : List α)
    (hm : ∀ acc p, (step acc p).merges = acc.merges) (ws : Sheet) :
    (ps.foldl step ws).merges = ws.merges := by
  induction ps generalizing ws with
  | nil => rfl
  | cons p t ih => rw [List.foldl_cons, ih (step ws p), hm]

theorem foldl_cell_frame {α : Type} (step : Sheet → α → Sheet)
    (hits : α → Nat → Nat → Prop) (M : List MergeRange)
    (hm : ∀ acc p, (step acc p).merges = acc.merges)
    (hf : ∀ acc p, acc.merges = M → ∀ r c, ¬ hits p r c → (step acc p).cell r c = acc.cell r c)
    (ps : List α) (ws : Sheet) (hws : ws.merges = M) (r c : Nat)
    (h : ∀ p ∈ ps, ¬ hits p r c) :
    (ps.foldl step ws).cell r c = ws.cell r c := by
  induction ps generalizing ws with
  | nil => rfl
  | cons p t ih =>
    rw [List.foldl_cons]
    rw [ih (step ws p) (by rw [hm]; exact hws) (fun q hq => h q (List.mem_cons_of_mem _ hq))]
    exact hf ws p hws r c (h p (List.mem_cons_self _ _))

theorem foldl_cell_at {α : Type} (step : Sheet → α → Sheet)
    (hits : α → Nat → Nat → Prop) (M : List MergeRange)
    (hm : ∀ acc p, (step acc p).merges = acc.merges)
    (hf : ∀ acc p, acc.merges = M → ∀ r c, ¬ hits p r c → (step acc p).cell r c = acc.cell r c)
    (l₁ l₂ : List α) (p₀ : α) (ws : Sheet) (hws : ws.merges = M) (r c : Nat)
    (h₂ : ∀ p ∈ l₂, ¬ hits p r c) :
    ((l₁ ++ p₀ :: l₂).foldl step ws).cell r c = (step (l₁.foldl step ws) p₀).cell r c := by
  rw [List.foldl_append, List.foldl_cons]
  exact foldl_cell_frame step hits M hm hf l₂ _
    (by rw [hm, foldl_merges_const step l₁ hm ws]; exact hws) r c h₂

/-! # Lemmas: `set_value_merge_safe` -/

theorem svms_fst_eq (ws : Sheet) (row col : Nat) (v : CellValue) :
    (set_value_merge_safe ws row col v).1 =
      (match svmsTarget ws.merges row col with
       | none => ws
       | some rc => setVal ws rc.1 rc.2 v) := by
  unfold set_value_merge_safe svmsTarget mergedTopLeft
  by_cases h : mergedNonAnchor ws.merges row col
  · rw [if_pos h, if_pos h]
    cases mtlOf ws.merges row col <;> rfl
  · rw [if_neg h, if_neg h]

theorem svms_merges (ws : Sheet) (row col : Nat) (v : CellValue) :
    (set_value_merge_safe ws row col v).1.merges = ws.merges := by
  rw [svms_fst_eq]
  cases svmsTarget ws.merges row col <;> rfl

theorem svms_cell_ne (ws : Sheet) (row col : Nat) (v : CellValue) (r' c' : Nat)
    (h : ∀ rc, svmsTarget ws.merges row col = some rc → ¬(r' = rc.1 ∧ c' = rc.2)) :
    (set_value_merge_safe ws row col v).1.cell r' c' = ws.cell r' c' := by
  rw [svms_fst_eq]
  cases ht : svmsTarget ws.merges row col with
  | none => rfl
  | some rc => exact setVal_cell_ne ws rc.1 rc.2 v r' c' (h rc ht)

theorem svmsTarget_of_not_secondary (M : List MergeRange) (row col : Nat)
    (h : is_secondaryOf M row col = false) :
    svmsTarget M row col = some (row, col) := by
  unfold svmsTarget
  by_cases hna : mergedNonAnchor M row col
  · rw [if_pos hna]
    unfold mergedNonAnchor at hna
    rw [List.any_eq_true] at hna
    obtain ⟨rg, hmem, hrg⟩ := hna
    rw [Bool.and_eq_true] at hrg
    obtain ⟨rg₀, hfind⟩ :=
      find?_mem_exists (fun rg => rg.containsB row col) M rg hmem hrg.1
    unfold is_secondaryOf at h
    rw [hfind] at h
    simp only [Bool.not_eq_false] at h
    have hx : row = rg₀.minRow ∧ col = rg₀.minCol := by
      revert h
      cases hb : (row == rg₀.minRow && col == rg₀.minCol)
      · intro h
        exact absurd h (by simp)
      · intro h
        rw [Bool.and_eq_true, beq_iff_eq, beq_iff_eq] at hb
        exact hb
    unfold mtlOf
    rw [hfind]
    simp [← hx.1, ← hx.2]
  · rw [if_neg hna]

theorem svms_not_secondary_eq (ws : Sheet) (row col : Nat) (v : CellValue)
    (h : is_secondaryOf ws.merges row col = false) :
    (set_value_merge_safe ws row col v).1 = setVal ws row col v := by
  rw [svms_fst_eq, svmsTarget_of_not_secondary _ _ _ h]

theorem svms_snd_true (ws : Sheet) (row col : Nat) (v : CellValue) :
    (set_value_merge_safe ws row col v).2 = true := by
  unfold set_value_merge_safe
  by_cases h : mergedNonAnchor ws.merges row col
  · rw [if_pos h]
    unfold mergedNonAnchor at h
    rw [List.any_eq_true] at h
    obtain ⟨rg, hmem, hrg⟩ := h
    rw [Bool.and_eq_true] at hrg
    obtain ⟨rg₀, hfind⟩ :=
      find?_mem_exists (fun rg => rg.containsB row col) ws.merges rg hmem hrg.1
    unfold mergedTopLeft mtlOf
    rw [hfind]
    rfl
  · rw [if_neg h]

/-! # Claim C1: merge-safe writes -/

/-- C1: over pairwise-disjoint merge ranges, `set_value_merge_safe(ws, r, c, v)`
writes the anchor cell of the merge range containing `(r, c)` and alters
no other cell of that range; a coordinate inside no merge range is written
directly (all other cells untouched); and the boolean result is always
`true` — the write is never silently lost. -/
theorem claim_C1_merge_safe_write (ws : Sheet) (v : CellValue) (r c : Nat)
    (hdisj : ws.merges.Pairwise
      (fun a b => ∀ x y : Nat, ¬(a.containsB x y = true ∧ b.containsB x y = true))) :
    (∀ R ∈ ws.merges, R.containsB r c = true →
        (set_value_merge_safe ws r c v).1.val R.minRow R.minCol = v ∧
        (∀ r' c', R.containsB r' c' = true → ¬(r' = R.minRow ∧ c' = R.minCol) →
          (set_value_merge_safe ws r c v).1.cell r' c' = ws.cell r' c')) ∧
    ((∀ R ∈ ws.merges, R.containsB r c = false) →
        (set_value_merge_safe ws r c v).1.val r c = v ∧
        (∀ r' c', ¬(r' = r ∧ c' = c) →
          (set_value_merge_safe ws r c v).1.cell r' c' = ws.cell r' c')) ∧
    (set_value_merge_safe ws r c v).2 = true := by
  have hsymm : ∀ a b : MergeRange,
      (∀ x y : Nat, ¬(a.containsB x y = true ∧ b.containsB x y = true)) →
      (∀ x y : Nat, ¬(b.containsB x y = true ∧ a.containsB x y = true)) :=
    fun a b h x y hxy => h x y ⟨hxy.2, hxy.1⟩
  refine ⟨?_, ?_, svms_snd_true ws r c v⟩
  · intro R hR hRc
    -- uniqueness: any range containing (r, c) is R
    have huniq : ∀ rg ∈ ws.merges, rg.containsB r c = true → rg = R := by
      intro rg hrg hc
      by_contra hne
      exact (List.Pairwise.forall (fun a b h => hsymm a b h) hdisj hrg hR hne) r c ⟨hc, hRc⟩
    by_cases hanch : r = R.minRow ∧ c = R.minCol
    · -- writing at the anchor itself: the cell object is not a MergedCell
      have hna : mergedNonAnchor ws.merges r c = false := by
        unfold mergedNonAnchor
        rw [List.any_eq_false]
        intro rg hrg
        by_cases hc : rg.containsB r c = true
        · obtain rfl := huniq rg hrg hc
          simp [hc, hanch.1, hanch.2]
        · simp [Bool.eq_false_iff.mpr hc]
      have heq : (set_value_merge_safe ws r c v).1 = setVal ws r c v := by
        unfold set_value_merge_safe
        rw [hna]
        simp
      constructor
      · rw [heq, ← hanch.1, ← hanch.2]
        simp [Sheet.val, setVal_cell_self]
      · intro r' c' _hin hne
        rw [heq]
        exact setVal_cell_ne ws r c v r' c' (by rw [← hanch.1, ← hanch.2] at hne; exact hne)
    · -- writing at a non-anchor member: redirected to the anchor of R
      have htgt : svmsTarget ws.merges r c = some (R.minRow, R.minCol) := by
        have hna : mergedNonAnchor ws.merges r c = true := by
          unfold mergedNonAnchor
          rw [List.any_eq_true]
          refine ⟨R, hR, ?_⟩
          rw [Bool.and_eq_true]
          refine ⟨hRc, ?_⟩
          simp only [Bool.not_eq_true']
          rw [Bool.eq_false_iff]
          intro hcontra
          rw [Bool.and_eq_true, beq_iff_eq, beq_iff_eq] at hcontra
          exact hanch hcontra
        unfold svmsTarget
        rw [if_pos hna]
        obtain ⟨rg₀, hfind⟩ :=
          find?_mem_exists (fun rg => rg.containsB r c) ws.merges R hR hRc
        have hcont₀ := List.find?_some hfind
        have hmem₀ := List.mem_of_find?_eq_some hfind
        obtain rfl := huniq rg₀ hmem₀ hcont₀
        unfold mtlOf
        rw [hfind]
        rfl
      have heq : (set_value_merge_safe ws r c v).1 = setVal ws R.minRow R.minCol v := by
        rw [svms_fst_eq, htgt]
      constructor
      · rw [heq]
        simp [Sheet.val, setVal_cell_self]
      · intro r' c' _hin hne
        rw [heq]
        exact setVal_cell_ne ws R.minRow R.minCol v r' c' hne
  · intro hno
    have hna : mergedNonAnchor ws.merges r c = false := by
      unfold mergedNonAnchor
      rw [List.any_eq_false]
      intro rg hrg
      simp [hno rg hrg]
    have heq : (set_value_merge_safe ws r c v).1 = setVal ws r c v := by
      unfold set_value_merge_safe
      rw [hna]
      simp
    constructor
    · rw [heq]
      simp [Sheet.val, setVal_cell_self]
    · intro r' c' hne
      rw [heq]
      exact setVal_cell_ne ws r c v r' c' hne

/-- Witness for C1 on a concrete sheet with one merge range. -/
theorem claim_C1_witness :
    (set_value_merge_safe exC1sheet 2 2 (.vInt 9)).1.val 1 1 = .vInt 9 ∧
    (set_value_merge_safe exC1sheet 2 2 (.vInt 9)).1.cell 2 1 = exC1sheet.cell 2 1 ∧
    (set_value_merge_safe exC1sheet 2 2 (.vInt 9)).2 = true := by
  have h := claim_C1_merge_safe_write exC1sheet (.vInt 9) 2 2
    (by rw [show exC1sheet.merges = [⟨1, 1, 2, 2⟩] from rfl]; simp)
  have h1 := h.1 ⟨1, 1, 2, 2⟩ (by decide) (by decide)
  exact ⟨h1.1, h1.2 2 1 (by decide) (by decide), h.2.2⟩

/-! # Claim C9: footer normalization without a copyright row is a no-op -/

/-- C9: when no cell of the first column contains the copyright marker,
`update_footer_with_stand_and_copyright` returns the sheet unchanged (no
stamp removed, moved or written), and this is not an error. -/
theorem claim_C9_footer_noop (ws : Sheet) (standText : Option String) (cy : Nat)
    (h : ∀ r < ws.maxRow + 1, hasCopyrightVal (ws.val r 1) = false) :
    update_footer_with_stand_and_copyright ws standText cy = ws := by
  unfold update_footer_with_stand_and_copyright find_copyright_row
  rw [find?_rev_range'_none 1 ws.maxRow _ (fun j h1 h2 => h j (by omega))]

/-- Witness for C9: a sheet with no copyright row is returned unchanged. -/
theorem claim_C9_witness :
    update_footer_with_stand_and_copyright exC9sheet (some "Stand: neu") 2026 = exC9sheet :=
  claim_C9_footer_noop exC9sheet (some "Stand: neu") 2026 (by decide)

/-! # Lemmas: single-column sweeps -/

theorem colPass_frame (step : Sheet → Nat → Sheet) (colIndex : Nat) (ws : Sheet)
    (hm : ∀ acc r, (step acc r).merges = acc.merges)
    (hf : ∀ acc r r' c', ¬(r' = r ∧ c' = colIndex) → (step acc r).cell r' c' = acc.cell r' c')
    (r' c' : Nat) (h : c' ≠ colIndex ∨ r' < 1 ∨ ws.maxRow < r') :
    ((List.range' 1 ws.maxRow).foldl step ws).cell r' c' = ws.cell r' c' := by
  refine foldl_cell_frame step (fun p rr cc => rr = p ∧ cc = colIndex) ws.merges
    (fun acc p => hm acc p) (fun acc p _hM rr cc hn => hf acc p rr cc hn)
    _ ws rfl r' c' (fun p hp hcon => ?_)
  have hb := List.mem_range'_1.mp hp
  rcases h with h | h | h
  · exact h hcon.2
  · omega
  · have : r' = p := hcon.1
    omega

theorem colPass_at (step : Sheet → Nat → Sheet) (colIndex : Nat) (ws : Sheet)
    (hm : ∀ acc r, (step acc r).merges = acc.merges)
    (hf : ∀ acc r r' c', ¬(r' = r ∧ c' = colIndex) → (step acc r).cell r' c' = acc.cell r' c')
    (r : Nat) (h1 : 1 ≤ r) (h2 : r ≤ ws.maxRow) :
    ∃ acc : Sheet, ((List.range' 1 ws.maxRow).foldl step ws).cell r colIndex =
        (step acc r).cell r colIndex ∧
      acc.cell r colIndex = ws.cell r colIndex := by
  have hsplit := range'_split 1 ws.maxRow r h1 (by omega)
  refine ⟨(List.range' 1 (r - 1)).foldl step ws, ?_, ?_⟩
  · conv_lhs => rw [hsplit]
    refine foldl_cell_at step (fun p rr cc => rr = p ∧ cc = colIndex) ws.merges
      (fun acc p => hm acc p) (fun acc p _hM rr cc hn => hf acc p rr cc hn)
      _ _ r ws rfl r colIndex (fun p hp hcon => ?_)
    have hb := List.mem_range'_1.mp hp
    omega
  · refine foldl_cell_frame step (fun p rr cc => rr = p ∧ cc = colIndex) ws.merges
      (fun acc p => hm acc p) (fun acc p _hM rr cc hn => hf acc p rr cc hn)
      _ ws rfl r colIndex (fun p hp hcon => ?_)
    have hb := List.mem_range'_1.mp hp
    omega

/-! # Claim C4: row highlighting -/

/-- C4 as stated is false: in a sheet whose used width is 3 columns, row 1
carries marker value 1 in marker column 2, yet after
`mark_cells_with_1_or_2` the cell in column 1 of that row keeps its
original fill (`0`), not the given fill style (`5`). -/
theorem claim_C4_counterexample :
    isMark12 (exC4sheet.val 1 2) = true ∧ exC4sheet.maxCol = 3 ∧
    (mark_cells_with_1_or_2 exC4sheet 2 5).fillAt 1 1 = 0 ∧ (0 : Nat) ≠ 5 := by
  refine ⟨by decide, by decide, by decide, by decide⟩

/-- C4 (amended): `mark_cells_with_1_or_2` applies the fill style only to
the marker-column cell of each row whose marker value equals 1 or 2 (as a
number or as the corresponding string after stripping); every other cell
of the row — and every cell of a row whose marker value is outside
{1, 2} — is left entirely unchanged. -/
theorem claim_C4_marker_highlight (ws : Sheet) (colIndex fill : Nat) :
    (∀ r, 1 ≤ r → r ≤ ws.maxRow →
      (isMark12 (ws.val r colIndex) = true →
        (mark_cells_with_1_or_2 ws colIndex fill).cell r colIndex =
          { ws.cell r colIndex with fill := fill }) ∧
      (isMark12 (ws.val r colIndex) = false →
        (mark_cells_with_1_or_2 ws colIndex fill).cell r colIndex = ws.cell r colIndex)) ∧
    (∀ r' c', c' ≠ colIndex ∨ r' < 1 ∨ ws.maxRow < r' →
      (mark_cells_with_1_or_2 ws colIndex fill).cell r' c' = ws.cell r' c') := by
  have hm : ∀ (acc : Sheet) (r : Nat),
      ((fun acc r => if isMark12 (acc.val r colIndex) then setFill acc r colIndex fill
        else acc) acc r).merges = acc.merges := by
    intro acc r
    by_cases h : isMark12 (acc.val r colIndex) <;> simp [h, setFill, updCell_merges]
  have hf : ∀ (acc : Sheet) (r r' c' : Nat), ¬(r' = r ∧ c' = colIndex) →
      ((fun acc r => if isMark12 (acc.val r colIndex) then setFill acc r colIndex fill
        else acc) acc r).cell r' c' = acc.cell r' c' := by
    intro acc r r' c' hn
    by_cases h : isMark12 (acc.val r colIndex) <;>
      simp [h, setFill, updCell_cell_ne _ _ _ _ _ _ hn]
  constructor
  · intro r h1 h2
    obtain ⟨acc, hval, hcell⟩ :=
      colPass_at (fun acc r => if isMark12 (acc.val r colIndex) then
        setFill acc r colIndex fill else acc) colIndex ws hm hf r h1 h2
    have haccval : acc.val r colIndex = ws.val r colIndex := by
      unfold Sheet.val
      rw [hcell]
    constructor
    · intro hmark
      rw [mark_cells_with_1_or_2, hval]
      simp only [haccval, hmark, if_true]
      rw [setFill]
      rw [updCell_cell_self, hcell]
    · intro hmark
      rw [mark_cells_with_1_or_2, hval]
      simp only [haccval, hmark]
      simp [hcell]
  · intro r' c' h
    rw [mark_cells_with_1_or_2]
    exact colPass_frame _ colIndex ws hm hf r' c' h

/-- Witness for C4 (amended) on the concrete marker sheet. -/
theorem claim_C4_witness :
    (mark_cells_with_1_or_2 exC4sheet 2 5).cell 1 2 =
      { exC4sheet.cell 1 2 with fill := 5 } ∧
    (mark_cells_with_1_or_2 exC4sheet 2 5).cell 1 1 = exC4sheet.cell 1 1 :=
  ⟨((claim_C4_marker_highlight exC4sheet 2 5).1 1 (by decide) (by decide)).1 (by decide),
   (claim_C4_marker_highlight exC4sheet 2 5).2 1 1 (by decide)⟩

/-! # Lemmas: decimal digit strings -/

theorem natDigitsAux_chars (fuel n : Nat) (c : Char) (h : c ∈ natDigitsAux fuel n) :
    ∃ d, d < 10 ∧ c = digitChar d := by
  induction fuel generalizing n with
  | zero => simp [natDigitsAux] at h
  | succ m ih =>
    unfold natDigitsAux at h
    by_cases hn : n = 0
    · simp [hn] at h
    · rw [if_neg hn] at h
      rcases List.mem_append.mp h with h1 | h2
      · exact ih (n / 10) h1
      · simp only [List.mem_singleton] at h2
        exact ⟨n % 10, Nat.mod_lt _ (by norm_num), h2⟩

theorem digitChar_props (d : Nat) (hd : d < 10) :
    (digitChar d).isDigit = true ∧ digitChar d ≠ '.' ∧ digitChar d ≠ '%' := by
  interval_cases d <;> exact ⟨by decide, by decide, by decide⟩

theorem natRepr_chars (n : Nat) (c : Char) (h : c ∈ (natRepr n).data) :
    c.isDigit = true := by
  unfold natRepr at h
  by_cases hn : n = 0
  · rw [if_pos hn] at h
    simp only [String.data] at h
    obtain rfl : c = '0' := by simpa using h
    decide
  · rw [if_neg hn] at h
    obtain ⟨d, hd, rfl⟩ := natDigitsAux_chars (n + 1) n c h
    exact (digitChar_props d hd).1

theorem natRepr_no_dot (n : Nat) : '.' ∉ (natRepr n).data := by
  intro h
  have := natRepr_chars n '.' h
  simp at this

theorem natRepr_no_pct (n : Nat) : '%' ∉ (natRepr n).data := by
  intro h
  have := natRepr_chars n '%' h
  simp at this

/-! # Claim C8: percent column formatting -/

/-- C8: `format_percent_column` assigns the format `"0.0;-0.0;0"` to every
numeric cell of the given column (leaving the stored value untouched) and
changes nothing else — in particular the sentinels `"-"`/`"X"` and any
other non-numeric cell keep their cells verbatim.  Under that format an
exact zero displays as the bare `"0"`, any other numeric value displays
with exactly one decimal place, and no percent sign ever appears. -/
theorem claim_C8_percent_format (ws : Sheet) (colIndex : Nat) :
    (∀ r, 1 ≤ r → r ≤ ws.maxRow →
      (isNumericCellVal (ws.val r colIndex) = true →
        (format_percent_column ws colIndex).cell r colIndex =
          { ws.cell r colIndex with numFmt := pctFmtStr }) ∧
      (isNumericCellVal (ws.val r colIndex) = false →
        (format_percent_column ws colIndex).cell r colIndex = ws.cell r colIndex) ∧
      (∀ q : ℚ, ws.val r colIndex = .vFloat q →
        displayPctCell ((format_percent_column ws colIndex).cell r colIndex) =
          some (renderPct q)) ∧
      (∀ n : Int, ws.val r colIndex = .vInt n →
        displayPctCell ((format_percent_column ws colIndex).cell r colIndex) =
          some (renderPct (n : ℚ)))) ∧
    (∀ r' c', c' ≠ colIndex ∨ r' < 1 ∨ ws.maxRow < r' →
      (format_percent_column ws colIndex).cell r' c' = ws.cell r' c') ∧
    renderPct 0 = "0" ∧
    (∀ q : ℚ, q ≠ 0 → ∃ a d, renderPct q = a ++ "." ++ String.mk [d] ∧
      d.isDigit = true ∧ '.' ∉ a.data) ∧
    (∀ q : ℚ, '%' ∉ (renderPct q).data) := by
  have hm : ∀ (acc : Sheet) (r : Nat), (formatPctStep colIndex acc r).merges = acc.merges := by
    intro acc r
    unfold formatPctStep
    cases acc.val r colIndex <;> rfl
  have hf : ∀ (acc : Sheet) (r r' c' : Nat), ¬(r' = r ∧ c' = colIndex) →
      (formatPctStep colIndex acc r).cell r' c' = acc.cell r' c' := by
    intro acc r r' c' hn
    unfold formatPctStep
    cases acc.val r colIndex <;>
      simp [setFmt, updCell_cell_ne _ _ _ _ _ _ hn]
  have hmain : ∀ r, 1 ≤ r → r ≤ ws.maxRow →
      (isNumericCellVal (ws.val r colIndex) = true →
        (format_percent_column ws colIndex).cell r colIndex =
          { ws.cell r colIndex with numFmt := pctFmtStr }) ∧
      (isNumericCellVal (ws.val r colIndex) = false →
        (format_percent_column ws colIndex).cell r colIndex = ws.cell r colIndex) := by
    intro r h1 h2
    obtain ⟨acc, hval, hcell⟩ := colPass_at (formatPctStep colIndex) colIndex ws hm hf r h1 h2
    have haccval : acc.val r colIndex = ws.val r colIndex := by
      unfold Sheet.val
      rw [hcell]
    constructor
    · intro hnum
      rw [format_percent_column, hval]
      unfold formatPctStep
      rw [haccval]
      cases hv : ws.val r colIndex with
      | vInt n => simp [setFmt, updCell_cell_self, hcell]
      | vFloat q => simp [setFmt, updCell_cell_self, hcell]
      | vNone => rw [hv] at hnum; simp [isNumericCellVal] at hnum
      | vStr s => rw [hv] at hnum; simp [isNumericCellVal] at hnum
    · intro hnum
      rw [format_percent_column, hval]
      unfold formatPctStep
      rw [haccval]
      cases hv : ws.val r colIndex with
      | vInt n => rw [hv] at hnum; simp [isNumericCellVal] at hnum
      | vFloat q => rw [hv] at hnum; simp [isNumericCellVal] at hnum
      | vNone => simp [hcell]
      | vStr s => simp [hcell]
  refine ⟨?_, ?_, ?_, ?_, ?_⟩
  · intro r h1 h2
    refine ⟨(hmain r h1 h2).1, (hmain r h1 h2).2, ?_, ?_⟩
    · intro q hq
      have hc := (hmain r h1 h2).1 (by rw [hq]; rfl)
      rw [hc]
      unfold displayPctCell
      simp only [if_pos rfl]
      show (match ({ ws.cell r colIndex with numFmt := pctFmtStr } : Cell).val with
        | CellValue.vInt n => some (renderPct (n : ℚ))
        | CellValue.vFloat q => some (renderPct q)
        | _ => none) = some (renderPct q)
      have : ({ ws.cell r colIndex with numFmt := pctFmtStr } : Cell).val = .vFloat q := hq
      rw [this]
    · intro n hn
      have hc := (hmain r h1 h2).1 (by rw [hn]; rfl)
      rw [hc]
      unfold displayPctCell
      simp only [if_pos rfl]
      show (match ({ ws.cell r colIndex with numFmt := pctFmtStr } : Cell).val with
        | CellValue.vInt n => some (renderPct (n : ℚ))
        | CellValue.vFloat q => some (renderPct q)
        | _ => none) = some (renderPct (n : ℚ))
      have : ({ ws.cell r colIndex with numFmt := pctFmtStr } : Cell).val = .vInt n := hn
      rw [this]
  · intro r' c' h
    rw [format_percent_column]
    exact colPass_frame _ colIndex ws hm hf r' c' h
  · simp [renderPct]
  · intro q hq
    refine ⟨(if q < 0 then "-" else "") ++ natRepr ((⌊|q| * 10 + 1/2⌋).toNat / 10),
            digitChar ((⌊|q| * 10 + 1/2⌋).toNat % 10), ?_, ?_, ?_⟩
    · rw [renderPct, if_neg hq]
    · exact (digitChar_props _ (Nat.mod_lt _ (by norm_num))).1
    · rw [String.data_append]
      intro hmem
      rcases List.mem_append.mp hmem with h1 | h2
      · by_cases hlt : q < 0
        · rw [if_pos hlt] at h1
          simp at h1
        · rw [if_neg hlt] at h1
          simp at h1
      · exact natRepr_no_dot _ h2
  · intro q
    rw [renderPct]
    by_cases h0 : q = 0
    · rw [if_pos h0]
      decide
    · rw [if_neg h0]
      rw [String.data_append, String.data_append, String.data_append]
      intro hmem
      rcases List.mem_append.mp hmem with hmem | hmem
      · rcases List.mem_append.mp hmem with hmem | hmem
        · rcases List.mem_append.mp hmem with hmem | hmem
          · by_cases hlt : q < 0
            · rw [if_pos hlt] at hmem
              simp at hmem
            · rw [if_neg hlt] at hmem
              simp at hmem
          · exact natRepr_no_pct _ hmem
        · simp only [String.data] at hmem
          have hdot : '%' = '.' := by simp at hmem
          exact absurd hdot (by decide)
      · have hd := natDigitsAux_chars 1 1 '%'
        simp only [String.data] at hmem
        have h9 : '%' = digitChar ((⌊|q| * 10 + 1/2⌋).toNat % 10) := by simpa using hmem
        have := (digitChar_props _ (Nat.mod_lt (⌊|q| * 10 + 1/2⌋).toNat (by norm_num))).2.2
        exact this h9.symm

/-- Witness for C8: column 2 of the concrete sheet gets the percent format
on its numeric cell and leaves the sentinel `"X"` cell unchanged. -/
theorem claim_C8_witness :
    (format_percent_column exC8sheet 2).cell 1 2 =
      { exC8sheet.cell 1 2 with numFmt := pctFmtStr } ∧
    (format_percent_column exC8sheet 2).cell 2 2 = exC8sheet.cell 2 2 ∧
    displayPctCell ((format_percent_column exC8sheet 2).cell 1 2) =
      some (renderPct ((5 : Int) : ℚ)) :=
  ⟨((claim_C8_percent_format exC8sheet 2).1 1 (by decide) (by decide)).1 (by decide),
   ((claim_C8_percent_format exC8sheet 2).1 2 (by decide) (by decide)).2.1 (by decide),
   ((claim_C8_percent_format exC8sheet 2).1 1 (by decide) (by decide)).2.2.2 5 (by decide)⟩

/-! # Lemmas: whole-grid sweeps -/

theorem gridPass_frame (step : Sheet → Nat × Nat → Sheet) (ws : Sheet)
    (hm : ∀ acc p, (step acc p).merges = acc.merges)
    (hf : ∀ (acc : Sheet) (p : Nat × Nat) (r' c' : Nat), ¬(r' = p.1 ∧ c' = p.2) →
      (step acc p).cell r' c' = acc.cell r' c')
    (r' c' : Nat) (h : r' < 1 ∨ ws.maxRow < r' ∨ c' < 1 ∨ ws.maxCol < c') :
    ((gridPts 1 ws.maxRow 1 ws.maxCol).foldl step ws).cell r' c' = ws.cell r' c' := by
  refine foldl_cell_frame step (fun p rr cc => rr = p.1 ∧ cc = p.2) ws.merges
    (fun acc p => hm acc p) (fun acc p _hM rr cc hn => hf acc p rr cc hn)
    _ ws rfl r' c' (fun p hp hcon => ?_)
  obtain ⟨p1, p2⟩ := p
  have hb := (mem_gridPts 1 ws.maxRow 1 ws.maxCol p1 p2).mp hp
  obtain ⟨hca, hcb⟩ := hcon
  simp only at hca hcb
  omega

theorem gridPass_at (step : Sheet → Nat × Nat → Sheet) (ws : Sheet)
    (hm : ∀ acc p, (step acc p).merges = acc.merges)
    (hf : ∀ (acc : Sheet) (p : Nat × Nat) (r' c' : Nat), ¬(r' = p.1 ∧ c' = p.2) →
      (step acc p).cell r' c' = acc.cell r' c')
    (r c : Nat) (h1 : 1 ≤ r) (h2 : r ≤ ws.maxRow) (h3 : 1 ≤ c) (h4 : c ≤ ws.maxCol) :
    ∃ acc : Sheet, ((gridPts 1 ws.maxRow 1 ws.maxCol).foldl step ws).cell r c =
        (step acc (r, c)).cell r c ∧
      acc.cell r c = ws.cell r c := by
  obtain ⟨l₁, l₂, hsplit, hn1, hn2⟩ :=
    gridPts_split 1 ws.maxRow 1 ws.maxCol r c h1 (by omega) h3 (by omega)
  refine ⟨l₁.foldl step ws, ?_, ?_⟩
  · conv_lhs => rw [hsplit]
    refine foldl_cell_at step (fun p rr cc => rr = p.1 ∧ cc = p.2) ws.merges
      (fun acc p => hm acc p) (fun acc p _hM rr cc hn => hf acc p rr cc hn)
      l₁ l₂ (r, c) ws rfl r c (fun p hp hcon => ?_)
    obtain ⟨p1, p2⟩ := p
    obtain ⟨hca, hcb⟩ := hcon
    simp only at hca hcb
    exact hn2 (p1, p2) hp (by rw [← hca, ← hcb])
  · refine foldl_cell_frame step (fun p rr cc => rr = p.1 ∧ cc = p.2) ws.merges
      (fun acc p => hm acc p) (fun acc p _hM rr cc hn => hf acc p rr cc hn)
      l₁ ws rfl r c (fun p hp hcon => ?_)
    obtain ⟨p1, p2⟩ := p
    obtain ⟨hca, hcb⟩ := hcon
    simp only at hca hcb
    exact hn1 (p1, p2) hp (by rw [← hca, ← hcb])

theorem formatNumericStep_merges (skipCols : List Nat) (acc : Sheet) (p : Nat × Nat) :
    (formatNumericStep skipCols acc p).merges = acc.merges := by
  unfold formatNumericStep
  by_cases hs : p.2 ∈ skipCols
  · rw [if_pos hs]
  · rw [if_neg hs]
    cases acc.val p.1 p.2 <;> rfl

theorem formatNumericStep_frame (skipCols : List Nat) (acc : Sheet) (p : Nat × Nat)
    (r' c' : Nat) (hn : ¬(r' = p.1 ∧ c' = p.2)) :
    (formatNumericStep skipCols acc p).cell r' c' = acc.cell r' c' := by
  unfold formatNumericStep
  by_cases hs : p.2 ∈ skipCols
  · rw [if_pos hs]
  · rw [if_neg hs]
    cases acc.val p.1 p.2 <;>
      simp [setFmt, setVal, updCell_cell_ne _ _ _ _ _ _ hn]

/-! # Claim C10: integer formatting destroys fractional values -/

/-- C10: `format_numeric_cells` is destructive on stored values: every
float cell outside the skip columns — anywhere in the used range,
including header and footer rows — has its stored value replaced by
`int(round(v))` with round-half-to-even (`0.5 ↦ 0`, `2.5 ↦ 2`), and two
sheets that differ only in floats with equal roundings format to the same
stored value, so the fraction is irrecoverable. -/
theorem claim_C10_integer_rounding (ws : Sheet) (skipCols : List Nat) (r c : Nat) (q : ℚ)
    (h1 : 1 ≤ r) (h2 : r ≤ ws.maxRow) (h3 : 1 ≤ c) (h4 : c ≤ ws.maxCol)
    (hskip : c ∉ skipCols) (hv : ws.val r c = .vFloat q) :
    (format_numeric_cells ws skipCols).val r c = .vInt (pyRound q) ∧
    (format_numeric_cells ws skipCols).fmt r c = intFmtStr ∧
    pyRound (1/2 : ℚ) = 0 ∧ pyRound (5/2 : ℚ) = 2 ∧
    (format_numeric_cells exC10A []).val 1 1 = (format_numeric_cells exC10B []).val 1 1 ∧
    exC10A.val 1 1 ≠ exC10B.val 1 1 := by
  obtain ⟨acc, hval, hcell⟩ := gridPass_at (formatNumericStep skipCols) ws
    (formatNumericStep_merges skipCols) (formatNumericStep_frame skipCols) r c h1 h2 h3 h4
  have haccval : acc.val r c = .vFloat q := by
    unfold Sheet.val
    rw [hcell]
    exact hv
  have hstep : (formatNumericStep skipCols acc (r, c)).cell r c =
      { acc.cell r c with val := .vInt (pyRound q), numFmt := intFmtStr } := by
    unfold formatNumericStep
    rw [if_neg hskip]
    rw [haccval]
    simp [setFmt, setVal, updCell_cell_self]
  have hres : (format_numeric_cells ws skipCols).cell r c =
      { acc.cell r c with val := .vInt (pyRound q), numFmt := intFmtStr } := by
    rw [format_numeric_cells, hval, hstep]
  have hhalf : pyRound (1/2 : ℚ) = 0 := by
    rw [pyRound]
    norm_num
  have h25 : pyRound (5/2 : ℚ) = 2 := by
    rw [pyRound]
    norm_num
  have h04 : pyRound (2/5 : ℚ) = 0 := by
    rw [pyRound]
    norm_num
  have hAv : (format_numeric_cells exC10A []).val 1 1 = .vInt (pyRound (1/2)) := by
    rw [format_numeric_cells]
    rw [show gridPts 1 exC10A.maxRow 1 exC10A.maxCol = [(1, 1)] from rfl]
    rw [List.foldl_cons, List.foldl_nil]
    unfold formatNumericStep
    rw [if_neg (by simp)]
    rw [show exC10A.val 1 1 = CellValue.vFloat (1/2) from rfl]
    simp [Sheet.val, setFmt, setVal, updCell_cell_self]
  have hBv : (format_numeric_cells exC10B []).val 1 1 = .vInt (pyRound (2/5)) := by
    rw [format_numeric_cells]
    rw [show gridPts 1 exC10B.maxRow 1 exC10B.maxCol = [(1, 1)] from rfl]
    rw [List.foldl_cons, List.foldl_nil]
    unfold formatNumericStep
    rw [if_neg (by simp)]
    rw [show exC10B.val 1 1 = CellValue.vFloat (2/5) from rfl]
    simp [Sheet.val, setFmt, setVal, updCell_cell_self]
  refine ⟨?_, ?_, hhalf, h25, ?_, ?_⟩
  · unfold Sheet.val
    rw [hres]
  · unfold Sheet.fmt
    rw [hres]
  · rw [hAv, hBv, hhalf, h04]
  · rw [show exC10A.val 1 1 = CellValue.vFloat (1/2) from rfl,
      show exC10B.val 1 1 = CellValue.vFloat (2/5) from rfl]
    intro h
    rw [CellValue.vFloat.injEq] at h
    norm_num at h

/-- Witness for C10: the concrete float cell `0.5` is replaced by the
integer 0. -/
theorem claim_C10_witness :
    (format_numeric_cells exC10A []).val 1 1 = .vInt (pyRound (1/2)) ∧
    pyRound (1/2 : ℚ) = 0 :=
  ⟨(claim_C10_integer_rounding exC10A [] 1 1 (1/2) (by decide) (by decide) (by decide)
      (by decide) (by simp) rfl).1,
   (claim_C10_integer_rounding exC10A [] 1 1 (1/2) (by decide) (by decide) (by decide)
      (by decide) (by simp) rfl).2.2.1⟩

/-! # Claim C7: data-block and footer detection for table 1 -/

/-- C7 as stated is false: on a sheet whose label column holds the
literal `"Total"` first in row 5 and whose copyright marker row is row 4,
`detect_data_and_footer_tab1` nevertheless returns `(2, 6)` — the first
numeric-like row and one past the last row — because the code implements
neither a `"Total"`-label rule nor a copyright fallback. -/
theorem claim_C7_counterexample :
    exC7sheet.val 5 1 = .vStr "Total" ∧
    (∀ j < 5, exC7sheet.val j 1 ≠ .vStr "Total") ∧
    hasCopyrightVal (exC7sheet.val 4 1) = true ∧
    (∀ j < 6, startsDashRow exC7sheet j = false) ∧
    detect_data_and_footer_tab1 exC7sheet = (2, 6) ∧
    ((2 : Nat), (6 : Nat)) ≠ ((5 : Nat), (4 : Nat)) := by
  refine ⟨by decide, by decide, by decide, by decide, by decide, by decide⟩

/-- C7 (amended): for table kind 1, `firstDataRow` is the first row (from
row 1) holding a numeric-like cell in some column from 2 onward,
defaulting to 1; `footerStartRow` is the first row whose first column
starts with `"-"` after stripping, defaulting to one past the last row;
there is no `"Total"`-label rule and no copyright-row fallback. -/
theorem claim_C7_detect_tab1 (ws : Sheet) :
    (∀ r₀, 1 ≤ r₀ → r₀ ≤ ws.maxRow → rowHasNumericFrom ws r₀ 2 = true →
      rowHasNumericFrom ws (detect_data_and_footer_tab1 ws).1 2 = true ∧
      1 ≤ (detect_data_and_footer_tab1 ws).1 ∧
      (detect_data_and_footer_tab1 ws).1 ≤ r₀ ∧
      (∀ j, 1 ≤ j → j < (detect_data_and_footer_tab1 ws).1 →
        rowHasNumericFrom ws j 2 = false)) ∧
    ((∀ j, 1 ≤ j → j ≤ ws.maxRow → rowHasNumericFrom ws j 2 = false) →
      (detect_data_and_footer_tab1 ws).1 = 1) ∧
    (∀ r₀, 1 ≤ r₀ → r₀ ≤ ws.maxRow → startsDashRow ws r₀ = true →
      startsDashRow ws (detect_data_and_footer_tab1 ws).2 = true ∧
      (detect_data_and_footer_tab1 ws).2 ≤ r₀ ∧
      (∀ j, 1 ≤ j → j < (detect_data_and_footer_tab1 ws).2 →
        startsDashRow ws j = false)) ∧
    ((∀ j, 1 ≤ j → j ≤ ws.maxRow → startsDashRow ws j = false) →
      (detect_data_and_footer_tab1 ws).2 = ws.maxRow + 1) := by
  refine ⟨?_, ?_, ?_, ?_⟩
  · intro r₀ h1 h2 hr₀
    cases hfd : (List.range' 1 ws.maxRow).find? (fun r => rowHasNumericFrom ws r 2) with
    | none =>
      exfalso
      have hnone := List.find?_eq_none.mp hfd r₀ (List.mem_range'_1.mpr ⟨h1, by omega⟩)
      simp [hr₀] at hnone
    | some k =>
      obtain ⟨hk1, hk2, hk3, hk4⟩ := find?_range'_some 1 ws.maxRow _ k hfd
      have hfdval : (detect_data_and_footer_tab1 ws).1 = k := by
        unfold detect_data_and_footer_tab1
        rw [hfd]
        simp
      rw [hfdval]
      refine ⟨hk3, hk1, ?_, fun j hj1 hj2 => hk4 j hj1 hj2⟩
      by_contra hgt
      have hcontra := hk4 r₀ h1 (by omega)
      rw [hr₀] at hcontra
      exact absurd hcontra (by simp)
  · intro hall
    have hfd : (List.range' 1 ws.maxRow).find? (fun r => rowHasNumericFrom ws r 2) = none :=
      find?_range'_none 1 ws.maxRow _ (fun j hj1 hj2 => hall j hj1 (by omega))
    unfold detect_data_and_footer_tab1
    rw [hfd]
    simp
  · intro r₀ h1 h2 hr₀
    cases hfd : (List.range' 1 ws.maxRow).find? (fun r => startsDashRow ws r) with
    | none =>
      exfalso
      have hnone := List.find?_eq_none.mp hfd r₀ (List.mem_range'_1.mpr ⟨h1, by omega⟩)
      simp [hr₀] at hnone
    | some k =>
      obtain ⟨hk1, hk2, hk3, hk4⟩ := find?_range'_some 1 ws.maxRow _ k hfd
      have hfdval : (detect_data_and_footer_tab1 ws).2 = k := by
        unfold detect_data_and_footer_tab1
        rw [hfd]
        simp
      rw [hfdval]
      refine ⟨hk3, ?_, fun j hj1 hj2 => hk4 j hj1 hj2⟩
      by_contra hgt
      have hcontra := hk4 r₀ h1 (by omega)
      rw [hr₀] at hcontra
      exact absurd hcontra (by simp)
  · intro hall
    have hfd : (List.range' 1 ws.maxRow).find? (fun r => startsDashRow ws r) = none :=
      find?_range'_none 1 ws.maxRow _ (fun j hj1 hj2 => hall j hj1 (by omega))
    unfold detect_data_and_footer_tab1
    rw [hfd]
    simp

/-- Witness for C7 (amended) on the concrete sheet with a numeric row 2
and a dash row 3. -/
theorem claim_C7_witness :
    rowHasNumericFrom exC7W (detect_data_and_footer_tab1 exC7W).1 2 = true ∧
    (detect_data_and_footer_tab1 exC7W).1 ≤ 2 ∧
    startsDashRow exC7W (detect_data_and_footer_tab1 exC7W).2 = true ∧
    (detect_data_and_footer_tab1 exC7W).2 ≤ 3 :=
  ⟨((claim_C7_detect_tab1 exC7W).1 2 (by decide) (by decide) (by decide)).1,
   ((claim_C7_detect_tab1 exC7W).1 2 (by decide) (by decide) (by decide)).2.2.1,
   ((claim_C7_detect_tab1 exC7W).2.2.1 3 (by decide) (by decide) (by decide)).1,
   ((claim_C7_detect_tab1 exC7W).2.2.1 3 (by decide) (by decide) (by decide)).2.1⟩

/-! # Lemmas: the transcription loop -/

theorem transcribeStep_merges (wsRaw : Sheet) (M : List MergeRange) (fdrRaw fdrOut : Nat)
    (acc : Sheet) (p : Nat × Nat) :
    (transcribeStep wsRaw M fdrRaw fdrOut acc p).merges = acc.merges := by
  unfold transcribeStep
  cases h : is_secondaryOf M (fdrOut + p.1) p.2
  · simp only [h, Bool.false_eq_true, if_false]
    exact svms_merges _ _ _ _
  · simp [h]

theorem transcribeStep_frame (wsRaw : Sheet) (M : List MergeRange) (fdrRaw fdrOut : Nat)
    (acc : Sheet) (p : Nat × Nat) (r' c' : Nat) (hM : acc.merges = M)
    (hn : ¬(r' = fdrOut + p.1 ∧ c' = p.2)) :
    (transcribeStep wsRaw M fdrRaw fdrOut acc p).cell r' c' = acc.cell r' c' := by
  unfold transcribeStep
  cases h : is_secondaryOf M (fdrOut + p.1) p.2
  · simp only [h, Bool.false_eq_true, if_false]
    rw [svms_not_secondary_eq _ _ _ _ (by rw [hM]; exact h)]
    exact setVal_cell_ne _ _ _ _ _ _ hn
  · simp [h]

theorem transcribeLoop_frame (wsRaw wsOut : Sheet) (fdrRaw fdrOut nRows cStart r c : Nat)
    (h : r < fdrOut ∨ fdrOut + nRows ≤ r) :
    (transcribeLoop wsRaw wsOut fdrRaw fdrOut nRows cStart).cell r c = wsOut.cell r c := by
  unfold transcribeLoop
  refine foldl_cell_frame (transcribeStep wsRaw wsOut.merges fdrRaw fdrOut)
    (fun p rr cc => rr = fdrOut + p.1 ∧ cc = p.2) wsOut.merges
    (fun acc p => transcribeStep_merges _ _ _ _ acc p)
    (fun acc p hM rr cc hn => transcribeStep_frame _ _ _ _ acc p rr cc hM hn)
    _ wsOut rfl r c (fun p hp hcon => ?_)
  obtain ⟨p1, p2⟩ := p
  have hb := (mem_gridPts 0 nRows cStart (wsOut.maxCol + 1 - cStart) p1 p2).mp hp
  obtain ⟨hca, _⟩ := hcon
  simp only at hca
  omega

theorem transcribeLoop_copy (wsRaw wsOut : Sheet) (fdrRaw fdrOut nRows cStart off c : Nat)
    (hoff : off < nRows) (hc1 : cStart ≤ c) (hc2 : c < cStart + (wsOut.maxCol + 1 - cStart))
    (hsec : is_secondaryOf wsOut.merges (fdrOut + off) c = false) :
    (transcribeLoop wsRaw wsOut fdrRaw fdrOut nRows cStart).val (fdrOut + off) c =
      wsRaw.val (fdrRaw + off) c := by
  unfold transcribeLoop
  obtain ⟨l₁, l₂, hsplit, hn1, hn2⟩ := gridPts_split 0 nRows cStart
    (wsOut.maxCol + 1 - cStart) off c (by omega) (by omega) hc1 hc2
  have hMacc : (l₁.foldl (transcribeStep wsRaw wsOut.merges fdrRaw fdrOut) wsOut).merges =
      wsOut.merges :=
    foldl_merges_const _ l₁ (fun acc p => transcribeStep_merges _ _ _ _ acc p) wsOut
  have hfold : ((gridPts 0 nRows cStart (wsOut.maxCol + 1 - cStart)).foldl
      (transcribeStep wsRaw wsOut.merges fdrRaw fdrOut) wsOut).cell (fdrOut + off) c =
      (transcribeStep wsRaw wsOut.merges fdrRaw fdrOut
        (l₁.foldl (transcribeStep wsRaw wsOut.merges fdrRaw fdrOut) wsOut) (off, c)).cell
        (fdrOut + off) c := by
    conv_lhs => rw [hsplit]
    refine foldl_cell_at _ (fun p rr cc => rr = fdrOut + p.1 ∧ cc = p.2) wsOut.merges
      (fun acc p => transcribeStep_merges _ _ _ _ acc p)
      (fun acc p hM rr cc hn => transcribeStep_frame _ _ _ _ acc p rr cc hM hn)
      l₁ l₂ (off, c) wsOut rfl _ _ (fun p hp hcon => ?_)
    obtain ⟨p1, p2⟩ := p
    obtain ⟨hca, hcb⟩ := hcon
    simp only at hca hcb
    refine hn2 (p1, p2) hp ?_
    have hp1 : p1 = off := by omega
    rw [hp1, ← hcb]
  unfold Sheet.val
  rw [hfold]
  rw [transcribeStep]
  simp only [hsec, Bool.false_eq_true, if_false]
  rw [svms_not_secondary_eq _ _ _ _ (by rw [hMacc]; exact hsec)]
  rw [setVal_cell_self]
  rfl

/-! # Claim C2: transcription row count and untouched rows -/

/-- C2: in both the table-1 and the table-2/3 builders, the transcription
step copies exactly `min(raw block length, template block length)` rows
(block length = footer start minus first data row, clamped at zero), the
copied window receives the raw values at every non-secondary cell, and
every template cell outside the window `[firstDataRow, firstDataRow + n)`
keeps its previous contents — silent truncation, never an error. -/
theorem claim_C2_transcription (wsRaw wsOut : Sheet) :
    (∀ nRows : Nat,
      nRows = min ((detect_data_and_footer_tab1 wsRaw).2 - (detect_data_and_footer_tab1 wsRaw).1)
          ((detect_data_and_footer_tab1 wsOut).2 - (detect_data_and_footer_tab1 wsOut).1) →
      ((nRows : Int) =
          min (max 0 (((detect_data_and_footer_tab1 wsRaw).2 : Int) -
              ((detect_data_and_footer_tab1 wsRaw).1 : Int)))
            (max 0 (((detect_data_and_footer_tab1 wsOut).2 : Int) -
              ((detect_data_and_footer_tab1 wsOut).1 : Int))) ∧
        (∀ r c, r < (detect_data_and_footer_tab1 wsOut).1 ∨
            (detect_data_and_footer_tab1 wsOut).1 + nRows ≤ r →
          (transcribeLoop wsRaw wsOut (detect_data_and_footer_tab1 wsRaw).1
              (detect_data_and_footer_tab1 wsOut).1 nRows 1).cell r c = wsOut.cell r c) ∧
        (∀ off c, off < nRows → 1 ≤ c → c ≤ wsOut.maxCol →
          is_secondaryOf wsOut.merges ((detect_data_and_footer_tab1 wsOut).1 + off) c = false →
          (transcribeLoop wsRaw wsOut (detect_data_and_footer_tab1 wsRaw).1
              (detect_data_and_footer_tab1 wsOut).1 nRows 1).val
              ((detect_data_and_footer_tab1 wsOut).1 + off) c =
            wsRaw.val ((detect_data_and_footer_tab1 wsRaw).1 + off) c))) ∧
    (∀ nRows : Nat,
      nRows = min
          ((detect_data_and_footer_tab2_3 wsRaw).2 - (detect_data_and_footer_tab2_3 wsRaw).1)
          ((detect_data_and_footer_tab2_3 wsOut).2 - (detect_data_and_footer_tab2_3 wsOut).1) →
      ((nRows : Int) =
          min (max 0 (((detect_data_and_footer_tab2_3 wsRaw).2 : Int) -
              ((detect_data_and_footer_tab2_3 wsRaw).1 : Int)))
            (max 0 (((detect_data_and_footer_tab2_3 wsOut).2 : Int) -
              ((detect_data_and_footer_tab2_3 wsOut).1 : Int))) ∧
        (∀ r c, r < (detect_data_and_footer_tab2_3 wsOut).1 ∨
            (detect_data_and_footer_tab2_3 wsOut).1 + nRows ≤ r →
          (transcribeLoop wsRaw wsOut (detect_data_and_footer_tab2_3 wsRaw).1
              (detect_data_and_footer_tab2_3 wsOut).1 nRows 2).cell r c = wsOut.cell r c) ∧
        (∀ off c, off < nRows → 2 ≤ c → c ≤ wsOut.maxCol →
          is_secondaryOf wsOut.merges ((detect_data_and_footer_tab2_3 wsOut).1 + off) c =
            false →
          (transcribeLoop wsRaw wsOut (detect_data_and_footer_tab2_3 wsRaw).1
              (detect_data_and_footer_tab2_3 wsOut).1 nRows 2).val
              ((detect_data_and_footer_tab2_3 wsOut).1 + off) c =
            wsRaw.val ((detect_data_and_footer_tab2_3 wsRaw).1 + off) c))) := by
  constructor
  · intro nRows hn
    refine ⟨by rw [hn]; push_cast; omega, ?_, ?_⟩
    · intro r c h
      exact transcribeLoop_frame wsRaw wsOut _ _ nRows 1 r c h
    · intro off c hoff hc1 hc2 hsec
      exact transcribeLoop_copy wsRaw wsOut _ _ nRows 1 off c hoff hc1 (by omega) hsec
  · intro nRows hn
    refine ⟨by rw [hn]; push_cast; omega, ?_, ?_⟩
    · intro r c h
      exact transcribeLoop_frame wsRaw wsOut _ _ nRows 2 r c h
    · intro off c hoff hc1 hc2 hsec
      exact transcribeLoop_copy wsRaw wsOut _ _ nRows 2 off c hoff hc1 (by omega) hsec

/-- Witness for C2 on the concrete raw/template pair: two rows are
transcribed, the row above the template window is untouched, and the first
window row receives the raw value. -/
theorem claim_C2_witness :
    (transcribeLoop exC2raw exC2out (detect_data_and_footer_tab1 exC2raw).1
        (detect_data_and_footer_tab1 exC2out).1 2 1).cell 2 1 = exC2out.cell 2 1 ∧
    (transcribeLoop exC2raw exC2out (detect_data_and_footer_tab1 exC2raw).1
        (detect_data_and_footer_tab1 exC2out).1 2 1).val
        ((detect_data_and_footer_tab1 exC2out).1 + 0) 2 =
      exC2raw.val ((detect_data_and_footer_tab1 exC2raw).1 + 0) 2 :=
  ⟨((claim_C2_transcription exC2raw exC2out).1 2 (by decide)).2.1 2 1 (by decide),
   ((claim_C2_transcription exC2raw exC2out).1 2 (by decide)).2.2 0 2 (by decide) (by decide)
     (by decide) (by decide)⟩

/-! # Claim C6: period resolution -/

/-- C6 as stated is false: the cell text `"- 2025"` is not a bare
four-digit year, yet `find_period_text` neither returns it verbatim nor
reports absence — it returns the rendered `"Jahr 2025"`, because the code
renders any candidate whose digits are exactly one `20xx` year, bare or
wrapped in non-digit characters. -/
theorem claim_C6_counterexample :
    exC6sheet.val 1 1 = .vStr "- 2025" ∧
    isDigits4 "- 2025" = false ∧
    find_period_text exC6sheet = some "Jahr 2025" ∧
    some "Jahr 2025" ≠ some "- 2025" ∧
    find_period_text exC6sheet ≠ none := by
  refine ⟨by decide, by decide, by decide, by decide, by decide⟩

/-- C6 (amended): `find_period_text` collects candidates over the bounded
header region in scan order (top-to-bottom, left-to-right) and returns the
last one; absence of candidates yields `none` (not an error); a candidate
whose stripped text is a bare `20xx` year renders as `"Jahr <YYYY>"`
(more generally, any candidate whose digits are exactly one `20xx` year is
rendered that way); a candidate containing a month or period token is
returned verbatim (stripped). -/
theorem claim_C6_period_resolver (ws : Sheet) :
    ((∀ p ∈ periodRegion ws, classifyPeriodCell (ws.val p.1 p.2) = none) →
      find_period_text ws = none) ∧
    (∀ (l₁ l₂ : List (Nat × Nat)) (r₀ c₀ : Nat) (t : String),
      periodRegion ws = l₁ ++ (r₀, c₀) :: l₂ →
      classifyPeriodCell (ws.val r₀ c₀) = some t →
      (∀ p ∈ l₂, classifyPeriodCell (ws.val p.1 p.2) = none) →
      find_period_text ws = some t) ∧
    (∀ d1 d2 : Fin 10,
      classifyPeriodCell (.vStr (String.mk ['2', '0', digitChar d1.val, digitChar d2.val])) =
        some (String.mk ("Jahr ".data ++ ['2', '0', digitChar d1.val, digitChar d2.val]))) ∧
    (∀ (s : String) (y : List Char), pyStrip s ≠ "" →
      searchYear20 (pyStrip s).data = some y → monthOrTokenHit (pyStrip s) = true →
      classifyPeriodCell (.vStr s) = some (pyStrip s)) := by
  refine ⟨?_, ?_, by decide, ?_⟩
  · intro h
    unfold find_period_text
    rw [List.filterMap_eq_nil_iff.mpr h]
    rfl
  · intro l₁ l₂ r₀ c₀ t hsplit hclass hnone
    unfold find_period_text
    rw [hsplit, List.filterMap_append]
    have hcons : List.filterMap (fun p => classifyPeriodCell (ws.val p.1 p.2)) ((r₀, c₀) :: l₂) =
        t :: List.filterMap (fun p => classifyPeriodCell (ws.val p.1 p.2)) l₂ := by
      rw [List.filterMap_cons]
      rw [hclass]
    rw [hcons, List.filterMap_eq_nil_iff.mpr hnone]
    simp [List.getLast?_concat]
  · intro s y hne hy hm
    simp only [classifyPeriodCell]
    rw [if_neg hne, hy]
    simp only [hm, if_true]

/-- Witness for C6 (amended): with two month candidates in the region, the
later one in scan order is returned. -/
theorem claim_C6_witness :
    find_period_text exC6W = some "Januar 2025" :=
  (claim_C6_period_resolver exC6W).2.1 [(1, 1), (1, 2)] [(2, 2)] 2 1 "Januar 2025"
    (by decide) (by decide) (by decide)

/-! # Lemmas: the copyright-year rewrite -/

theorem isSpaceCh_of_digit (c : Char) (h : c.isDigit = true) : isSpaceCh c = false := by
  by_contra hsp
  rw [Bool.not_eq_false] at hsp
  unfold isSpaceCh at hsp
  simp only [Bool.or_eq_true, beq_iff_eq] at hsp
  rcases hsp with ((((h1 | h1) | h1) | h1) | h1) | h1 <;>
    rw [h1] at h <;> exact absurd h (by decide)

theorem matchCY_none_of_not_paren (c : Char) (l : List Char) (h : c ≠ '(') :
    matchCY (c :: l) = none := by
  unfold matchCY
  rw [show copyrightLit = '(' :: "C)opyright".data from rfl]
  simp [stripLitPfx, h]

theorem rewriteCY_no_paren (repl : List Char) (fuel : Nat) (l : List Char)
    (h : '(' ∉ l) : rewriteCYChars repl fuel l = l := by
  induction fuel generalizing l with
  | zero => rfl
  | succ m ih =>
    cases l with
    | nil => rfl
    | cons c rest =>
      have hc : c ≠ '(' := fun hc => h (hc ▸ List.mem_cons_self _ _)
      simp only [rewriteCYChars]
      rw [matchCY_none_of_not_paren c rest hc]
      rw [ih rest (fun hm => h (List.mem_cons_of_mem _ hm))]

theorem matchCY_head (rest : List Char) (d1 d2 d3 d4 : Char)
    (h1 : d1.isDigit = true) (h2 : d2.isDigit = true) (h3 : d3.isDigit = true)
    (h4 : d4.isDigit = true) :
    matchCY ("(C)opyright ".data ++ [d1, d2, d3, d4] ++ rest) = some rest := by
  have hstrip : stripLitPfx ("(C)opyright ".data ++ [d1, d2, d3, d4] ++ rest) copyrightLit =
      some (' ' :: d1 :: d2 :: d3 :: d4 :: rest) := by
    rw [show copyrightLit = ['(', 'C', ')', 'o', 'p', 'y', 'r', 'i', 'g', 'h', 't'] from rfl]
    rw [show "(C)opyright ".data ++ [d1, d2, d3, d4] ++ rest =
        '(' :: 'C' :: ')' :: 'o' :: 'p' :: 'y' :: 'r' :: 'i' :: 'g' :: 'h' :: 't' :: ' ' ::
          d1 :: d2 :: d3 :: d4 :: rest from by simp]
    simp [stripLitPfx]
  have hsp1 : isSpaceCh ' ' = true := by decide
  have hspd : isSpaceCh d1 = false := isSpaceCh_of_digit d1 h1
  have htw : List.takeWhile isSpaceCh (' ' :: d1 :: d2 :: d3 :: d4 :: rest) = [' '] := by
    simp [List.takeWhile, hsp1, hspd]
  have htail : matchCYTail (' ' :: d1 :: d2 :: d3 :: d4 :: rest) = some rest := by
    unfold matchCYTail
    rw [htw]
    simp [h1, h2, h3, h4]
  unfold matchCY
  simp only [hstrip, htail]

theorem rewriteCY_head (cy : Nat) (rest : List Char) (d1 d2 d3 d4 : Char)
    (h1 : d1.isDigit = true) (h2 : d2.isDigit = true) (h3 : d3.isDigit = true)
    (h4 : d4.isDigit = true) (hrest : '(' ∉ rest) :
    rewriteCopyrightYear (String.mk ("(C)opyright ".data ++ [d1, d2, d3, d4] ++ rest)) cy =
      String.mk ("(C)opyright ".data ++ (natRepr cy).data ++ rest) := by
  unfold rewriteCopyrightYear
  have hdata : (String.mk ("(C)opyright ".data ++ [d1, d2, d3, d4] ++ rest)).data =
      "(C)opyright ".data ++ [d1, d2, d3, d4] ++ rest := rfl
  rw [hdata]
  have hlen : ("(C)opyright ".data ++ [d1, d2, d3, d4] ++ rest).length =
      (15 + rest.length) + 1 := by
    simp
    omega
  rw [hlen]
  have hcons : "(C)opyright ".data ++ [d1, d2, d3, d4] ++ rest =
      '(' :: ('C' :: ')' :: 'o' :: 'p' :: 'y' :: 'r' :: 'i' :: 'g' :: 'h' :: 't' :: ' ' ::
        d1 :: d2 :: d3 :: d4 :: rest) := by simp
  rw [hcons]
  simp only [rewriteCYChars]
  rw [← hcons]
  simp only [matchCY_head rest d1 d2 d3 d4 h1 h2 h3 h4]
  rw [rewriteCY_no_paren _ _ rest hrest]

/-! # Lemmas: `get_last_data_col` bounds -/

theorem foldl_max_col_bounds (l : List (Nat × Nat)) (f : Nat × Nat → Bool) (B init : Nat)
    (hinit1 : 1 ≤ init) (hinit2 : init ≤ B)
    (hmem : ∀ p ∈ l, p.2 ≤ B) :
    1 ≤ l.foldl (fun last p => if f p then max last p.2 else last) init ∧
      l.foldl (fun last p => if f p then max last p.2 else last) init ≤ B := by
  induction l generalizing init with
  | nil => exact ⟨hinit1, hinit2⟩
  | cons p t ih =>
    rw [List.foldl_cons]
    by_cases hp : f p
    · rw [if_pos hp]
      exact ih (max init p.2) (le_trans hinit1 (le_max_left _ _))
        (max_le hinit2 (hmem p (List.mem_cons_self _ _)))
        (fun q hq => hmem q (List.mem_cons_of_mem _ hq))
    · rw [if_neg hp]
      exact ih init hinit1 hinit2 (fun q hq => hmem q (List.mem_cons_of_mem _ hq))

theorem get_last_data_col_bounds (ws : Sheet) (endRow : Nat) (h : 1 ≤ ws.maxCol) :
    1 ≤ get_last_data_col ws endRow ∧ get_last_data_col ws endRow ≤ ws.maxCol := by
  unfold get_last_data_col
  refine foldl_max_col_bounds _ _ ws.maxCol 1 le_rfl h ?_
  intro p hp
  obtain ⟨p1, p2⟩ := p
  have hb := (mem_gridPts 1 (max 1 endRow) 1 (min 30 ws.maxCol) p1 p2).mp hp
  simp only
  omega

/-! # Lemmas: the stamp-removal sweep -/

theorem foldl_maxCol_const {α : Type} (step : Sheet → α → Sheet) (ps : List α)
    (hm : ∀ acc p, (step acc p).maxCol = acc.maxCol) (ws : Sheet) :
    (ps.foldl step ws).maxCol = ws.maxCol := by
  induction ps generalizing ws with
  | nil => rfl
  | cons p t ih => rw [List.foldl_cons, ih (step ws p), hm]

theorem foldl_maxRow_const {α : Type} (step : Sheet → α → Sheet) (ps : List α)
    (hm : ∀ acc p, (step acc p).maxRow = acc.maxRow) (ws : Sheet) :
    (ps.foldl step ws).maxRow = ws.maxRow := by
  induction ps generalizing ws with
  | nil => rfl
  | cons p t ih => rw [List.foldl_cons, ih (step ws p), hm]

theorem stampRemovalStep_merges (cr : Nat) (acc : Sheet) (p : Nat × Nat) :
    (stampRemovalStep cr acc p).merges = acc.merges := by
  unfold stampRemovalStep
  by_cases h : (startsStandVal (acc.val p.1 p.2) && decide (p.1 ≠ cr)) = true
  · rw [if_pos h]
    rfl
  · rw [if_neg h]

theorem stampRemovalStep_maxCol (cr : Nat) (acc : Sheet) (p : Nat × Nat) :
    (stampRemovalStep cr acc p).maxCol = acc.maxCol := by
  unfold stampRemovalStep
  by_cases h : (startsStandVal (acc.val p.1 p.2) && decide (p.1 ≠ cr)) = true
  · rw [if_pos h]
    rfl
  · rw [if_neg h]

theorem stampRemovalStep_maxRow (cr : Nat) (acc : Sheet) (p : Nat × Nat) :
    (stampRemovalStep cr acc p).maxRow = acc.maxRow := by
  unfold stampRemovalStep
  by_cases h : (startsStandVal (acc.val p.1 p.2) && decide (p.1 ≠ cr)) = true
  · rw [if_pos h]
    rfl
  · rw [if_neg h]

theorem stampRemovalStep_frame (cr : Nat) (acc : Sheet) (p : Nat × Nat) (r' c' : Nat)
    (hn : ¬(r' = p.1 ∧ c' = p.2)) :
    (stampRemovalStep cr acc p).cell r' c' = acc.cell r' c' := by
  unfold stampRemovalStep
  by_cases h : (startsStandVal (acc.val p.1 p.2) && decide (p.1 ≠ cr)) = true
  · rw [if_pos h]
    exact setVal_cell_ne _ _ _ _ _ _ hn
  · rw [if_neg h]

theorem stampRemovalStep_row_cr (cr : Nat) (acc : Sheet) (p : Nat × Nat) (r' c' : Nat)
    (hn : ¬(r' = p.1 ∧ c' = p.2 ∧ p.1 ≠ cr)) :
    (stampRemovalStep cr acc p).cell r' c' = acc.cell r' c' := by
  unfold stampRemovalStep
  by_cases hcrp : p.1 = cr
  · have hd : decide (p.1 ≠ cr) = false := by simp [hcrp]
    rw [hd, Bool.and_false, if_neg (by simp)]
  · by_cases hss : startsStandVal (acc.val p.1 p.2) = true
    · have hcnd : (startsStandVal (acc.val p.1 p.2) && decide (p.1 ≠ cr)) = true := by
        simp [hss, hcrp]
      rw [if_pos hcnd]
      exact setVal_cell_ne _ _ _ _ _ _ (fun hx => hn ⟨hx.1, hx.2, hcrp⟩)
    · have hcnd : (startsStandVal (acc.val p.1 p.2) && decide (p.1 ≠ cr)) = false := by
        simp only [Bool.and_eq_false_iff]
        left
        exact Bool.eq_false_iff.mpr hss
      rw [hcnd, if_neg (by simp)]

/-! # Claim C5: footer normalization -/

/-- C5 as stated is false: on a sheet whose copyright row itself carries
two as-of stamps, `update_footer_with_stand_and_copyright` rewrites the
stamp at the left one but never removes the right one (the removal sweep
skips the copyright row), so two stamps remain after normalization. -/
theorem claim_C5_counterexample :
    hasCopyrightVal (exC5sheet.val 2 1) = true ∧
    startsStandVal (exC5sheet.val 2 2) = true ∧
    startsStandVal (exC5sheet.val 2 3) = true ∧
    startsStandVal ((update_footer_with_stand_and_copyright exC5sheet
      (some "Stand: 31.12.2025") 2026).val 2 2) = true ∧
    startsStandVal ((update_footer_with_stand_and_copyright exC5sheet
      (some "Stand: 31.12.2025") 2026).val 2 3) = true ∧
    (2 : Nat) ≠ 3 := by
  refine ⟨by decide, by decide, by decide, by decide, by decide, by decide⟩

/-- C5 (amended): when the sheet has a copyright row `cr`, a non-empty
stamp text, no pre-existing stamp on the copyright row itself, and every
stamp outside the copyright row starts with `"Stand:"` after stripping,
footer normalization leaves exactly one stamp: the new text sits at the
resolved target column (the right-most non-empty data column above the
copyright row, there being no stamp on the copyright row) and no other
cell of the sheet contains `"Stand:"`; if the target column is not
column 1 the copyright cell holds its year-rewritten text; and the year
rewrite replaces any four-digit year after `"(C)opyright "` by the
current year, regardless of the year previously present. -/
theorem claim_C5_footer_normalization (ws : Sheet) (st : String) (cy cr : Nat)
    (hcr : find_copyright_row ws = some cr)
    (hcol : 1 ≤ ws.maxCol)
    (hst : st ≠ "")
    (hstc : hasSub st.data "Stand:".data = true)
    (hnoCrStand : ∀ c < ws.maxCol + 1, hasStandVal (ws.val cr c) = false)
    (hwell : ∀ r < ws.maxRow + 1, ∀ c < ws.maxCol + 1, r ≠ cr →
      hasStandVal (ws.val r c) = true → startsStandVal (ws.val r c) = true)
    (hcop : hasStandVal (rewriteCopyrightCell (ws.val cr 1) cy) = false) :
    ∀ ws2 : Sheet,
      ws2 = (gridPts 1 ws.maxRow 1 ws.maxCol).foldl (stampRemovalStep cr)
        (setVal ws cr 1 (rewriteCopyrightCell (ws.val cr 1) cy)) →
    ∀ sc : Nat, sc = resolvedStandCol ws2 cr →
      ((update_footer_with_stand_and_copyright ws (some st) cy).val cr sc = .vStr st ∧
       hasStandVal ((update_footer_with_stand_and_copyright ws (some st) cy).val cr sc) =
         true ∧
       (∀ r c, 1 ≤ r → r < ws.maxRow + 1 → 1 ≤ c → c < ws.maxCol + 1 →
         hasStandVal ((update_footer_with_stand_and_copyright ws (some st) cy).val r c) =
           true → r = cr ∧ c = sc) ∧
       1 ≤ sc ∧ sc ≤ ws.maxCol ∧
       (sc ≠ 1 → (update_footer_with_stand_and_copyright ws (some st) cy).val cr 1 =
         rewriteCopyrightCell (ws.val cr 1) cy)) ∧
      (∀ (rest : List Char) (d1 d2 d3 d4 : Char), d1.isDigit = true → d2.isDigit = true →
        d3.isDigit = true → d4.isDigit = true → '(' ∉ rest →
        rewriteCopyrightYear (String.mk ("(C)opyright ".data ++ [d1, d2, d3, d4] ++ rest))
            cy =
          String.mk ("(C)opyright ".data ++ (natRepr cy).data ++ rest)) := by
  intro ws2 hws2 sc hsc
  have hcrb := hcr
  unfold find_copyright_row at hcrb
  obtain ⟨hcr1, hcr2, _hcrp, _⟩ := find?_rev_range'_some 1 ws.maxRow _ cr hcrb
  -- the base sheet after the year rewrite
  have hws2mc : ws2.maxCol = ws.maxCol := by
    rw [hws2]
    exact foldl_maxCol_const _ _ (fun acc p => stampRemovalStep_maxCol cr acc p) _
  have hws2mr : ws2.maxRow = ws.maxRow := by
    rw [hws2]
    exact foldl_maxRow_const _ _ (fun acc p => stampRemovalStep_maxRow cr acc p) _
  -- the copyright row is untouched by the removal sweep
  have hrow : ∀ x, ws2.cell cr x =
      (setVal ws cr 1 (rewriteCopyrightCell (ws.val cr 1) cy)).cell cr x := by
    intro x
    rw [hws2]
    refine foldl_cell_frame (stampRemovalStep cr)
      (fun p rr cc => rr = p.1 ∧ cc = p.2 ∧ p.1 ≠ cr) ws.merges
      (fun acc p => stampRemovalStep_merges cr acc p)
      (fun acc p _hM rr cc hn => stampRemovalStep_row_cr cr acc p rr cc hn)
      _ (setVal ws cr 1 (rewriteCopyrightCell (ws.val cr 1) cy)) rfl cr x
      (fun p _hp hcon => hcon.2.2 hcon.1.symm)
  have hrow1 : ws2.val cr 1 = rewriteCopyrightCell (ws.val cr 1) cy := by
    unfold Sheet.val
    rw [hrow 1, setVal_cell_self]
    rfl
  have hrowx : ∀ x, x ≠ 1 → ws2.val cr x = ws.val cr x := by
    intro x hx
    unfold Sheet.val
    rw [hrow x, setVal_cell_ne _ _ _ _ _ _ (fun hc => hx hc.2)]
  -- no stamp on the copyright row of the removal-stage sheet
  have hrowStand : ∀ c < ws.maxCol + 1, hasStandVal (ws2.val cr c) = false := by
    intro c hcb
    by_cases hc1 : c = 1
    · rw [hc1, hrow1]
      exact hcop
    · rw [hrowx c hc1]
      exact hnoCrStand c hcb
  -- hence the stamp column resolves to the last data column
  have hscval : sc = get_last_data_col ws2 (cr - 1) := by
    rw [hsc]
    unfold resolvedStandCol
    rw [find?_range'_none 1 ws2.maxCol _ (fun j hj1 hj2 => hrowStand j (by omega))]
  have hscb : 1 ≤ sc ∧ sc ≤ ws.maxCol := by
    rw [hscval]
    have hb := get_last_data_col_bounds ws2 (cr - 1) (by rw [hws2mc]; exact hcol)
    rw [hws2mc] at hb
    exact hb
  -- the function's result is a single styled write on the removal-stage sheet
  have hupd : update_footer_with_stand_and_copyright ws (some st) cy =
      updCell ws2 cr sc (fun _tc =>
        { val := .vStr st, numFmt := (ws2.cell cr 1).numFmt, fill := (ws2.cell cr 1).fill,
          font := (ws2.cell cr 1).font, border := (ws2.cell cr 1).border,
          protection := (ws2.cell cr 1).protection,
          alignH := some "right", alignV := (ws2.cell cr 1).alignV }) := by
    unfold update_footer_with_stand_and_copyright
    simp only [hcr]
    rw [if_neg hst]
    rw [← hws2, ← hsc]
  have hval_at : (update_footer_with_stand_and_copyright ws (some st) cy).val cr sc =
      .vStr st := by
    unfold Sheet.val
    rw [hupd, updCell_cell_self]
  refine ⟨⟨hval_at, by rw [hval_at]; unfold hasStandVal; exact hstc, ?_, hscb.1, hscb.2, ?_⟩,
    fun rest d1 d2 d3 d4 h1 h2 h3 h4 hrest =>
      rewriteCY_head cy rest d1 d2 d3 d4 h1 h2 h3 h4 hrest⟩
  · -- uniqueness of the stamp
    intro r c hr1 hr2 hc1 hc2 hstand
    by_cases hpt : r = cr ∧ c = sc
    · exact hpt
    exfalso
    rw [show (update_footer_with_stand_and_copyright ws (some st) cy).val r c =
        ws2.val r c from by unfold Sheet.val; rw [hupd, updCell_cell_ne _ _ _ _ _ _ hpt]]
      at hstand
    by_cases hrc : r = cr
    · subst hrc
      rw [hrowStand c hc2] at hstand
      exact absurd hstand (by simp)
    · -- a cell outside the copyright row
      have hbase : (setVal ws cr 1 (rewriteCopyrightCell (ws.val cr 1) cy)).cell r c =
          ws.cell r c :=
        setVal_cell_ne _ _ _ _ _ _ (fun hx => hrc hx.1)
      have hws2' : ws2 = (gridPts 1
          (setVal ws cr 1 (rewriteCopyrightCell (ws.val cr 1) cy)).maxRow 1
          (setVal ws cr 1 (rewriteCopyrightCell (ws.val cr 1) cy)).maxCol).foldl
          (stampRemovalStep cr)
          (setVal ws cr 1 (rewriteCopyrightCell (ws.val cr 1) cy)) := hws2
      obtain ⟨acc, hval2, hcell2⟩ := gridPass_at (stampRemovalStep cr)
        (setVal ws cr 1 (rewriteCopyrightCell (ws.val cr 1) cy))
        (fun acc p => stampRemovalStep_merges cr acc p)
        (fun acc p rr cc hn => stampRemovalStep_frame cr acc p rr cc hn)
        r c hr1 (by show r ≤ ws.maxRow; omega) hc1 (by show c ≤ ws.maxCol; omega)
      rw [← hws2'] at hval2
      have haccv : acc.val r c = ws.val r c := by
        unfold Sheet.val
        rw [hcell2, hbase]
      have hstep := hval2
      unfold stampRemovalStep at hstep
      by_cases hcnd : (startsStandVal (acc.val r c) && decide ((r, c).1 ≠ cr)) = true
      · rw [if_pos hcnd] at hstep
        have : ws2.val r c = .vStr "" := by
          unfold Sheet.val
          rw [hstep, setVal_cell_self]
        rw [this] at hstand
        exact absurd hstand (by decide)
      · rw [if_neg hcnd] at hstep
        have hsv : ws2.val r c = ws.val r c := by
          unfold Sheet.val
          rw [hstep, hcell2, hbase]
        rw [hsv] at hstand
        have hwl := hwell r hr2 c hc2 hrc hstand
        rw [← haccv] at hwl
        exact hcnd (by simp [hwl, hrc])
  · -- the copyright cell keeps its rewritten text when the stamp lands elsewhere
    intro hsc1
    unfold Sheet.val
    rw [hupd, updCell_cell_ne _ _ _ _ _ _ (fun hx => hsc1 hx.2.symm)]
    exact hrow1

/-- Witness for C5 (amended) on a concrete sheet: the stamp lands at
column 3 of copyright row 3 and the year-rewrite lemma applies to the
concrete copyright text. -/
theorem claim_C5_witness :
    (update_footer_with_stand_and_copyright exC5W (some "Stand: 31.12.2025") 2026).val 3 3 =
      .vStr "Stand: 31.12.2025" ∧
    rewriteCopyrightYear
        (String.mk ("(C)opyright ".data ++ ['2', '0', '1', '9'] ++ " X".data)) 2026 =
      String.mk ("(C)opyright ".data ++ (natRepr 2026).data ++ " X".data) := by
  have h := claim_C5_footer_normalization exC5W "Stand: 31.12.2025" 2026 3
    (by decide) (by decide) (by decide) (by decide) (by decide) (by decide) (by decide)
    ((gridPts 1 exC5W.maxRow 1 exC5W.maxCol).foldl (stampRemovalStep 3)
      (setVal exC5W 3 1 (rewriteCopyrightCell (exC5W.val 3 1) 2026))) rfl
    3 (by decide)
  exact ⟨h.1.1, h.2 " X".data '2' '0' '1' '9' (by decide) (by decide) (by decide) (by decide)
    (by decide)⟩

/-! # Lemmas: supporting facts for the annual external branch -/

theorem svms_maxRow (ws : Sheet) (row col : Nat) (v : CellValue) :
    (set_value_merge_safe ws row col v).1.maxRow = ws.maxRow := by
  rw [svms_fst_eq]
  cases svmsTarget ws.merges row col <;> rfl

theorem svms_maxCol (ws : Sheet) (row col : Nat) (v : CellValue) :
    (set_value_merge_safe ws row col v).1.maxCol = ws.maxCol := by
  rw [svms_fst_eq]
  cases svmsTarget ws.merges row col <;> rfl

theorem svms_nil_eq (ws : Sheet) (row col : Nat) (v : CellValue) (h : ws.merges = []) :
    (set_value_merge_safe ws row col v).1 = setVal ws row col v := by
  refine svms_not_secondary_eq ws row col v ?_
  rw [h]
  rfl

theorem gridPass_at_M (step : Sheet → Nat × Nat → Sheet) (M : List MergeRange) (ws : Sheet)
    (hws : ws.merges = M)
    (hm : ∀ acc p, (step acc p).merges = acc.merges)
    (hf : ∀ (acc : Sheet) (p : Nat × Nat) (r' c' : Nat), acc.merges = M →
      ¬(r' = p.1 ∧ c' = p.2) → (step acc p).cell r' c' = acc.cell r' c')
    (r c : Nat) (h1 : 1 ≤ r) (h2 : r ≤ ws.maxRow) (h3 : 1 ≤ c) (h4 : c ≤ ws.maxCol) :
    ∃ acc : Sheet, acc.merges = M ∧
      ((gridPts 1 ws.maxRow 1 ws.maxCol).foldl step ws).cell r c =
        (step acc (r, c)).cell r c ∧
      acc.cell r c = ws.cell r c := by
  obtain ⟨l₁, l₂, hsplit, hn1, hn2⟩ :=
    gridPts_split 1 ws.maxRow 1 ws.maxCol r c h1 (by omega) h3 (by omega)
  refine ⟨l₁.foldl step ws, by rw [foldl_merges_const step l₁ hm ws, hws], ?_, ?_⟩
  · conv_lhs => rw [hsplit]
    refine foldl_cell_at step (fun p rr cc => rr = p.1 ∧ cc = p.2) M
      hm (fun acc p hM rr cc hn => hf acc p rr cc hM hn)
      l₁ l₂ (r, c) ws hws r c (fun p hp hcon => ?_)
    obtain ⟨p1, p2⟩ := p
    obtain ⟨hca, hcb⟩ := hcon
    simp only at hca hcb
    exact hn2 (p1, p2) hp (by rw [← hca, ← hcb])
  · refine foldl_cell_frame step (fun p rr cc => rr = p.1 ∧ cc = p.2) M
      hm (fun acc p hM rr cc hn => hf acc p rr cc hM hn)
      l₁ ws hws r c (fun p hp hcon => ?_)
    obtain ⟨p1, p2⟩ := p
    obtain ⟨hca, hcb⟩ := hcon
    simp only at hca hcb
    exact hn1 (p1, p2) hp (by rw [← hca, ← hcb])

theorem clearFooterStep_merges (acc : Sheet) (p : Nat × Nat) :
    (clearFooterStep acc p).merges = acc.merges := by
  unfold clearFooterStep
  by_cases h : isFooterMarkerVal (acc.val p.1 p.2) = true
  · rw [if_pos h]
    exact svms_merges _ _ _ _
  · rw [if_neg h]

theorem clearFooterStep_maxRow (acc : Sheet) (p : Nat × Nat) :
    (clearFooterStep acc p).maxRow = acc.maxRow := by
  unfold clearFooterStep
  by_cases h : isFooterMarkerVal (acc.val p.1 p.2) = true
  · rw [if_pos h]
    exact svms_maxRow _ _ _ _
  · rw [if_neg h]

theorem clearFooterStep_maxCol (acc : Sheet) (p : Nat × Nat) :
    (clearFooterStep acc p).maxCol = acc.maxCol := by
  unfold clearFooterStep
  by_cases h : isFooterMarkerVal (acc.val p.1 p.2) = true
  · rw [if_pos h]
    exact svms_maxCol _ _ _ _
  · rw [if_neg h]

theorem clearFooterStep_frame (acc : Sheet) (p : Nat × Nat) (r' c' : Nat)
    (hM : acc.merges = []) (hn : ¬(r' = p.1 ∧ c' = p.2)) :
    (clearFooterStep acc p).cell r' c' = acc.cell r' c' := by
  unfold clearFooterStep
  by_cases h : isFooterMarkerVal (acc.val p.1 p.2) = true
  · rw [if_pos h, svms_nil_eq _ _ _ _ hM]
    exact setVal_cell_ne _ _ _ _ _ _ hn
  · rw [if_neg h]

theorem copyFooterCellStep_merges (wsT wsI : Sheet) (rSrc rTgt : Nat) (acc : Sheet)
    (cp : Nat) : (copyFooterCellStep wsT wsI rSrc rTgt acc cp).merges = acc.merges := by
  unfold copyFooterCellStep
  by_cases h : is_secondaryOf wsT.merges rTgt cp = true
  · rw [if_pos h]
  · rw [if_neg h]
    rw [updCell_merges, svms_merges]

theorem copyFooterCellStep_maxRow (wsT wsI : Sheet) (rSrc rTgt : Nat) (acc : Sheet)
    (cp : Nat) : (copyFooterCellStep wsT wsI rSrc rTgt acc cp).maxRow = acc.maxRow := by
  unfold copyFooterCellStep
  by_cases h : is_secondaryOf wsT.merges rTgt cp = true
  · rw [if_pos h]
  · rw [if_neg h]
    rw [updCell_maxRow, svms_maxRow]

theorem copyFooterCellStep_maxCol (wsT wsI : Sheet) (rSrc rTgt : Nat) (acc : Sheet)
    (cp : Nat) : (copyFooterCellStep wsT wsI rSrc rTgt acc cp).maxCol = acc.maxCol := by
  unfold copyFooterCellStep
  by_cases h : is_secondaryOf wsT.merges rTgt cp = true
  · rw [if_pos h]
  · rw [if_neg h]
    rw [updCell_maxCol, svms_maxCol]

theorem copyFooterCellStep_frame (wsT wsI : Sheet) (rSrc rTgt : Nat) (acc : Sheet)
    (cp : Nat) (r' c' : Nat) (hT : wsT.merges = []) (hM : acc.merges = [])
    (hr : r' ≠ rTgt) :
    (copyFooterCellStep wsT wsI rSrc rTgt acc cp).cell r' c' = acc.cell r' c' := by
  unfold copyFooterCellStep
  by_cases h : is_secondaryOf wsT.merges rTgt cp = true
  · rw [if_pos h]
  · rw [if_neg h]
    show (updCell (set_value_merge_safe acc rTgt cp (wsI.cell rSrc cp).val).1
      ((mtlOf wsT.merges rTgt cp).getD (rTgt, cp)).1
      ((mtlOf wsT.merges rTgt cp).getD (rTgt, cp)).2 (fun tc =>
        { val := tc.val, numFmt := (wsI.cell rSrc cp).numFmt,
          fill := (wsI.cell rSrc cp).fill, font := (wsI.cell rSrc cp).font,
          border := (wsI.cell rSrc cp).border, protection := (wsI.cell rSrc cp).protection,
          alignH := (wsI.cell rSrc cp).alignH, alignV := (wsI.cell rSrc cp).alignV })).cell
      r' c' = acc.cell r' c'
    rw [show mtlOf wsT.merges rTgt cp = none from by rw [hT]; rfl]
    rw [svms_nil_eq _ _ _ _ hM]
    show (updCell (setVal acc rTgt cp (wsI.cell rSrc cp).val) rTgt cp (fun tc =>
        { val := tc.val, numFmt := (wsI.cell rSrc cp).numFmt,
          fill := (wsI.cell rSrc cp).fill, font := (wsI.cell rSrc cp).font,
          border := (wsI.cell rSrc cp).border, protection := (wsI.cell rSrc cp).protection,
          alignH := (wsI.cell rSrc cp).alignH, alignV := (wsI.cell rSrc cp).alignV })).cell
      r' c' = acc.cell r' c'
    rw [updCell_cell_ne _ _ _ _ _ _ (fun hx => hr hx.1)]
    exact setVal_cell_ne _ _ _ _ _ _ (fun hx => hr hx.1)

theorem startsStand_of_not_marker (v : CellValue) (h : isFooterMarkerVal v = false) :
    startsStandVal v = false := by
  cases v with
  | vStr s =>
    unfold isFooterMarkerVal at h
    rw [Bool.or_eq_false_iff] at h
    unfold startsStandVal
    exact h.2
  | vNone => rfl
  | vInt n => rfl
  | vFloat q => rfl

theorem mark_val_eq (ws : Sheet) (colIndex fill r c : Nat) :
    (mark_cells_with_1_or_2 ws colIndex fill).val r c = ws.val r c := by
  have hm : ∀ (acc : Sheet) (rr : Nat),
      ((fun (acc : Sheet) (rr : Nat) => if isMark12 (acc.val rr colIndex) then
        setFill acc rr colIndex fill else acc) acc rr).merges = acc.merges := by
    intro acc rr
    by_cases h : isMark12 (acc.val rr colIndex) <;> simp [h, setFill, updCell_merges]
  have hf : ∀ (acc : Sheet) (rr r' c' : Nat), ¬(r' = rr ∧ c' = colIndex) →
      ((fun (acc : Sheet) (rr : Nat) => if isMark12 (acc.val rr colIndex) then
        setFill acc rr colIndex fill else acc) acc rr).cell r' c' = acc.cell r' c' := by
    intro acc rr r' c' hn
    by_cases h : isMark12 (acc.val rr colIndex) <;>
      simp [h, setFill, updCell_cell_ne _ _ _ _ _ _ hn]
  by_cases hb : 1 ≤ r ∧ r ≤ ws.maxRow ∧ c = colIndex
  · obtain ⟨h1, h2, hc⟩ := hb
    rw [hc]
    obtain ⟨acc, hval, hcell⟩ := colPass_at _ colIndex ws hm hf r h1 h2
    unfold Sheet.val
    rw [mark_cells_with_1_or_2, hval]
    by_cases hmk : isMark12 (acc.val r colIndex) <;>
      simp [hmk, setFill, updCell_cell_self, hcell]
  · unfold Sheet.val
    rw [mark_cells_with_1_or_2]
    rw [colPass_frame _ colIndex ws hm hf r c ?_]
    by_cases hc : c = colIndex
    · subst hc
      right
      omega
    · left
      exact hc

theorem update_footer_cell_frame (ws : Sheet) (standText : Option String) (cy r c : Nat)
    (h1 : 1 ≤ r) (h2 : r ≤ ws.maxRow) (h3 : 1 ≤ c) (h4 : c ≤ ws.maxCol)
    (hcrr : ∀ cr', find_copyright_row ws = some cr' → r ≠ cr')
    (hss : startsStandVal (ws.val r c) = false) :
    (update_footer_with_stand_and_copyright ws standText cy).cell r c = ws.cell r c := by
  cases hfc : find_copyright_row ws with
  | none =>
    unfold update_footer_with_stand_and_copyright
    simp only [hfc]
  | some cr =>
    have hrcr : r ≠ cr := hcrr cr hfc
    have hws1 : ∀ c', (setVal ws cr 1 (rewriteCopyrightCell (ws.val cr 1) cy)).cell r c' =
        ws.cell r c' := fun c' => setVal_cell_ne _ _ _ _ _ _ (fun hx => hrcr hx.1)
    have hws2 : ((gridPts 1 ws.maxRow 1 ws.maxCol).foldl (stampRemovalStep cr)
        (setVal ws cr 1 (rewriteCopyrightCell (ws.val cr 1) cy))).cell r c =
        ws.cell r c := by
      obtain ⟨acc, hval, hcell⟩ := gridPass_at (stampRemovalStep cr)
        (setVal ws cr 1 (rewriteCopyrightCell (ws.val cr 1) cy))
        (fun acc p => stampRemovalStep_merges cr acc p)
        (fun acc p r' c' hn => stampRemovalStep_frame cr acc p r' c' hn)
        r c h1 h2 h3 h4
      have hval' : ((gridPts 1 ws.maxRow 1 ws.maxCol).foldl (stampRemovalStep cr)
          (setVal ws cr 1 (rewriteCopyrightCell (ws.val cr 1) cy))).cell r c =
          (stampRemovalStep cr acc (r, c)).cell r c := hval
      have haccv : acc.val r c = ws.val r c := by
        unfold Sheet.val
        rw [hcell, hws1 c]
      have hstep : (stampRemovalStep cr acc (r, c)).cell r c = acc.cell r c := by
        show (if startsStandVal (acc.val r c) && decide (r ≠ cr) then
          setVal acc r c (.vStr "") else acc).cell r c = acc.cell r c
        rw [haccv, hss]
        rfl
      rw [hval', hstep, hcell, hws1 c]
    cases standText with
    | none =>
      unfold update_footer_with_stand_and_copyright
      simp only [hfc]
      exact hws2
    | some st =>
      by_cases hst : st = ""
      · unfold update_footer_with_stand_and_copyright
        simp only [hfc]
        rw [if_pos hst]
        exact hws2
      · unfold update_footer_with_stand_and_copyright
        simp only [hfc]
        rw [if_neg hst]
        rw [updCell_cell_ne _ _ _ _ _ _ (fun hx => hrcr hx.1)]
        exact hws2

/-! # Claim C3: the annual external artifact is not always a copy of the raw input -/

/-- C3 counterexample: for table kind 2 with annual granularity the
external artifact is NOT a copy of the raw input.  The raw sheet
`exC3raw` carries the value 77 in column 9, beyond the internal layout's
used width; the external artifact drops it (the annual branch reuses the
internal workbook, built from the internal layout, instead of copying the
raw sheet). -/
theorem claim_C3_counterexample :
    (process_table2_3_external 2 exC3raw exC3ext exC3int true 2026).val 2 9 = .vNone ∧
    exC3raw.val 2 9 = .vInt 77 := by
  constructor
  · decide
  · decide

/-- C3 (amended): in the annual (`-JJ`) branch the external
`LayoutTemplate` is never used, for any table kind.  But only table
kind 1 derives the external artifact from the raw input itself: every
raw cell outside the rewritten period cell (3, 1) that is not a footer
marker, not on the row receiving the copied internal footer, and not on
the copyright row of the footer-copy stage keeps its raw value.  Table
kinds 2 and 3 instead reuse the INTERNAL artifact with cell (1, 1)
blanked (raw columns beyond the internal layout are not preserved), and
table kind 5 does the same on every sheet. -/
theorem claim_C3_annual_external :
    (∀ (raw lExt1 lExt2 lInt : Sheet) (cy : Nat),
      process_table1_external raw lExt1 lInt true cy =
        process_table1_external raw lExt2 lInt true cy) ∧
    (∀ (tableNo : Nat) (raw lExt1 lExt2 lInt : Sheet) (cy : Nat),
      process_table2_3_external tableNo raw lExt1 lInt true cy =
        process_table2_3_external tableNo raw lExt2 lInt true cy) ∧
    (∀ (tableNo : Nat) (raw lExt lInt : Sheet) (cy : Nat),
      (process_table2_3_external tableNo raw lExt lInt true cy).val 1 1 = .vNone ∧
      (∀ r c, ¬(r = 1 ∧ c = 1) →
        (process_table2_3_external tableNo raw lExt lInt true cy).val r c =
          (build_table2_3_workbook tableNo raw lInt true cy).val r c)) ∧
    (∀ (sheets : List Sheet) (i : Nat) (wsI : Sheet),
      sheets[i]? = some wsI →
      ∃ out, (process_table5_jj_post sheets)[i]? = some out ∧
        out.val 1 1 = .vNone ∧
        (∀ r c, ¬(r = 1 ∧ c = 1) → out.val r c = wsI.val r c)) ∧
    (∀ (raw lExt lInt : Sheet) (cy : Nat) (r c : Nat),
      raw.merges = [] →
      1 ≤ r → r ≤ raw.maxRow → 1 ≤ c → c ≤ raw.maxCol →
      ¬(r = 3 ∧ c = 1) →
      isFooterMarkerVal (raw.val r c) = false →
      (∀ rSrc, find_copyright_row (build_table1_workbook raw lInt true cy) = some rSrc →
        r ≠ max 1 (rSrc - 2)) →
      ∀ wsG1 : Sheet,
        wsG1 = (match find_period_text raw with
          | some p =>
            if p = "" then raw
            else (set_value_merge_safe raw 3 1 (.vStr (if isDigits4 (pyStrip p) then
              String.mk ("Jahr ".data ++ (pyStrip p).data) else pyStrip p))).1
          | none => raw) →
      ∀ wsG3 : Sheet,
        wsG3 = copy_footer_row_from_intern (clear_existing_footer_markers wsG1)
          (build_table1_workbook raw lInt true cy) 2 →
      (∀ cr', find_copyright_row wsG3 = some cr' → r ≠ cr') →
      (process_table1_external raw lExt lInt true cy).val r c = raw.val r c) := by
  refine ⟨?_, ?_, ?_, ?_, ?_⟩
  · intro raw lExt1 lExt2 lInt cy
    unfold process_table1_external
    rw [if_pos (Eq.refl true), if_pos (Eq.refl true)]
  · intro tableNo raw lExt1 lExt2 lInt cy
    unfold process_table2_3_external
    rw [if_pos (Eq.refl true), if_pos (Eq.refl true)]
  · intro tableNo raw lExt lInt cy
    have hdef : process_table2_3_external tableNo raw lExt lInt true cy =
        mark_cells_with_1_or_2
          (setVal (build_table2_3_workbook tableNo raw lInt true cy) 1 1 .vNone) 5 jjFill := by
      unfold process_table2_3_external
      rw [if_pos (Eq.refl true)]
    constructor
    · rw [hdef, mark_val_eq]
      unfold Sheet.val
      rw [setVal_cell_self]
    · intro r c hn
      rw [hdef, mark_val_eq]
      unfold Sheet.val
      rw [setVal_cell_ne _ _ _ _ _ _ hn]
  · intro sheets i wsI h
    refine ⟨mark_cells_with_1_or_2 (setVal wsI 1 1 .vNone) 6 jjFill, ?_, ?_, ?_⟩
    · show (sheets.map (fun ws => mark_cells_with_1_or_2 (setVal ws 1 1 .vNone) 6 jjFill))[i]?
        = _
      rw [List.getElem?_map, h]
      rfl
    · rw [mark_val_eq]
      unfold Sheet.val
      rw [setVal_cell_self]
    · intro r c hn
      rw [mark_val_eq]
      unfold Sheet.val
      rw [setVal_cell_ne _ _ _ _ _ _ hn]
  · intro raw lExt lInt cy r c hmg h1 h2 h3 h4 hp3 hmark hcpy wsG1 hG1 wsG3 hG3 hcr
    have hproc : process_table1_external raw lExt lInt true cy =
        mark_cells_with_1_or_2 (update_footer_with_stand_and_copyright wsG3
          (extract_stand_from_raw raw) cy) 7 jjFill := by
      rw [hG3, hG1]
      unfold process_table1_external
      rw [if_pos (Eq.refl true)]
    have hG1m : wsG1.merges = [] := by
      rw [hG1]
      cases find_period_text raw with
      | none => exact hmg
      | some p =>
        by_cases hpe : p = ""
        · simp only [hpe, if_pos]
          exact hmg
        · simp only [if_neg hpe]
          rw [svms_merges]
          exact hmg
    have hG1mr : wsG1.maxRow = raw.maxRow := by
      rw [hG1]
      cases find_period_text raw with
      | none => rfl
      | some p =>
        by_cases hpe : p = ""
        · simp only [hpe, if_pos]
        · simp only [if_neg hpe]
          rw [svms_maxRow]
    have hG1mc : wsG1.maxCol = raw.maxCol := by
      rw [hG1]
      cases find_period_text raw with
      | none => rfl
      | some p =>
        by_cases hpe : p = ""
        · simp only [hpe, if_pos]
        · simp only [if_neg hpe]
          rw [svms_maxCol]
    have hG1cell : ∀ rr cc, ¬(rr = 3 ∧ cc = 1) → wsG1.cell rr cc = raw.cell rr cc := by
      intro rr cc hn
      rw [hG1]
      cases find_period_text raw with
      | none => rfl
      | some p =>
        by_cases hpe : p = ""
        · simp only [hpe, if_pos]
        · simp only [if_neg hpe]
          rw [svms_nil_eq _ _ _ _ hmg]
          exact setVal_cell_ne _ _ _ _ _ _ hn
    have hG2m : (clear_existing_footer_markers wsG1).merges = [] := by
      unfold clear_existing_footer_markers
      rw [foldl_merges_const clearFooterStep _ (fun acc p => clearFooterStep_merges acc p) wsG1]
      exact hG1m
    have hG2mr : (clear_existing_footer_markers wsG1).maxRow = raw.maxRow := by
      unfold clear_existing_footer_markers
      rw [foldl_maxRow_const clearFooterStep _ (fun acc p => clearFooterStep_maxRow acc p) wsG1]
      exact hG1mr
    have hG2mc : (clear_existing_footer_markers wsG1).maxCol = raw.maxCol := by
      unfold clear_existing_footer_markers
      rw [foldl_maxCol_const clearFooterStep _ (fun acc p => clearFooterStep_maxCol acc p) wsG1]
      exact hG1mc
    have hG2cell : (clear_existing_footer_markers wsG1).cell r c = raw.cell r c := by
      unfold clear_existing_footer_markers
      obtain ⟨acc, haccm, hval, hcell⟩ := gridPass_at_M clearFooterStep [] wsG1 hG1m
        (fun acc p => clearFooterStep_merges acc p)
        (fun acc p r' c' hM hn => clearFooterStep_frame acc p r' c' hM hn)
        r c h1 (by rw [hG1mr]; exact h2) h3 (by rw [hG1mc]; exact h4)
      rw [hval]
      have haccc : acc.cell r c = raw.cell r c := by
        rw [hcell]
        exact hG1cell r c hp3
      have hstep : (clearFooterStep acc (r, c)).cell r c = acc.cell r c := by
        show (if isFooterMarkerVal (acc.val r c) then
          (set_value_merge_safe acc r c (.vStr "")).1 else acc).cell r c = acc.cell r c
        have haccv : acc.val r c = raw.val r c := by
          unfold Sheet.val
          rw [haccc]
        rw [haccv, hmark]
        rfl
      rw [hstep, haccc]
    have hG3m : wsG3.merges = [] := by
      rw [hG3]
      unfold copy_footer_row_from_intern
      cases hfc : find_copyright_row (build_table1_workbook raw lInt true cy) with
      | none =>
        simp only [hfc]
        exact hG2m
      | some rSrc =>
        simp only [hfc]
        rw [foldl_merges_const _ _
          (fun acc p => copyFooterCellStep_merges _ _ _ _ acc p) _]
        exact hG2m
    have hG3mr : wsG3.maxRow = raw.maxRow := by
      rw [hG3]
      unfold copy_footer_row_from_intern
      cases hfc : find_copyright_row (build_table1_workbook raw lInt true cy) with
      | none =>
        simp only [hfc]
        exact hG2mr
      | some rSrc =>
        simp only [hfc]
        rw [foldl_maxRow_const _ _
          (fun acc p => copyFooterCellStep_maxRow _ _ _ _ acc p) _]
        exact hG2mr
    have hG3mc : wsG3.maxCol = raw.maxCol := by
      rw [hG3]
      unfold copy_footer_row_from_intern
      cases hfc : find_copyright_row (build_table1_workbook raw lInt true cy) with
      | none =>
        simp only [hfc]
        exact hG2mc
      | some rSrc =>
        simp only [hfc]
        rw [foldl_maxCol_const _ _
          (fun acc p => copyFooterCellStep_maxCol _ _ _ _ acc p) _]
        exact hG2mc
    have hG3cell : wsG3.cell r c = raw.cell r c := by
      rw [hG3]
      unfold copy_footer_row_from_intern
      cases hfc : find_copyright_row (build_table1_workbook raw lInt true cy) with
      | none =>
        simp only [hfc]
        exact hG2cell
      | some rSrc =>
        simp only [hfc]
        have hrne : r ≠ max 1 (rSrc - 2) := hcpy rSrc hfc
        rw [foldl_cell_frame
          (copyFooterCellStep (clear_existing_footer_markers wsG1)
            (build_table1_workbook raw lInt true cy) rSrc (max 1 (rSrc - 2)))
          (fun _cp rr _cc => rr = max 1 (rSrc - 2)) []
          (fun acc p => copyFooterCellStep_merges _ _ _ _ acc p)
          (fun acc p hM rr cc hn => copyFooterCellStep_frame _ _ _ _ acc p rr cc hG2m hM hn)
          _ _ hG2m r c (fun p _hp => hrne)]
        exact hG2cell
    have hss3 : startsStandVal (wsG3.val r c) = false := by
      unfold Sheet.val
      rw [hG3cell]
      exact startsStand_of_not_marker _ hmark
    have hG4cell : (update_footer_with_stand_and_copyright wsG3
        (extract_stand_from_raw raw) cy).cell r c = wsG3.cell r c :=
      update_footer_cell_frame wsG3 _ cy r c h1 (by rw [hG3mr]; exact h2) h3
        (by rw [hG3mc]; exact h4) hcr hss3
    rw [hproc, mark_val_eq]
    unfold Sheet.val
    rw [hG4cell, hG3cell]

/-- C3 witness: on the concrete annual table-1 run the raw analytic value
9 at (3, 2) survives into the external artifact, instantiating every
hypothesis of the preservation statement. -/
theorem claim_C3_witness :
    (process_table1_external exC3t1raw exC3ext exC3t1int true 2026).val 3 2 =
      exC3t1raw.val 3 2 ∧ exC3t1raw.val 3 2 = .vInt 9 :=
  ⟨claim_C3_annual_external.2.2.2.2 exC3t1raw exC3ext exC3t1int 2026 3 2
      rfl (by decide) (by decide) (by decide) (by decide) (by decide) (by decide)
      (fun rSrc hh => by
        have h4 : find_copyright_row (build_table1_workbook exC3t1raw exC3t1int true 2026) =
            some 4 := by decide
        rw [h4] at hh
        injection hh with h5
        subst h5
        decide)
      _ rfl _ rfl
      (fun cr' hh => by
        have h2' : find_copyright_row
            (copy_footer_row_from_intern
              (clear_existing_footer_markers
                (match find_period_text exC3t1raw with
                 | some p =>
                   if p = "" then exC3t1raw
                   else (set_value_merge_safe exC3t1raw 3 1
                     (.vStr (if isDigits4 (pyStrip p) then
                       String.mk ("Jahr ".data ++ (pyStrip p).data) else pyStrip p))).1
                 | none => exC3t1raw))
              (build_table1_workbook exC3t1raw exC3t1int true 2026) 2) = some 2 := by
          decide
        rw [h2'] at hh
        injection hh with h5
        subst h5
        decide),
    by decide⟩
